import Mathlib

/-!
Verification of the agentic control loop and builtin tool executors of the
vibe-code-cli repository (TypeScript), via a shallow embedding in Lean 4.

The embedding mirrors:
  - `src/tools/builtin/tool-schemas.ts` (tool executors: readFile, createFile,
    editFile, deleteFile, listFiles, searchFiles, executeCommand, createTasks,
    updateTasks, executeTool, and the safety-class lists),
  - `src/tools/validators.ts` (validateReadBeforeEdit and the standalone
    EditFileValidator with its ambiguous-match check),
  - `src/core/agent.ts` (Agent.executeToolCall, Agent.chat, Agent.interrupt,
    Agent.clearHistory).

The OS filesystem is modelled as a finite map from resolved absolute paths to
nodes; Node's `path.resolve` is modelled by segment-wise normalization; the
external shell and the wall clock are oracle parameters of the host record,
matching the spec's treatment of subprocess mechanics as out of scope.

String primitives are re-implemented over `List Char` with JavaScript
semantics (`split`, `join`, `startsWith`, `replace`) so that all definitions
evaluate inside the kernel.
-/

namespace VibeCli

/-- Boolean prefix test on character lists (JS `String.prototype.startsWith`). -/
def charsPrefix : List Char → List Char → Bool
  | [], _ => true
  | _ :: _, [] => false
  | a :: as, b :: bs => a = b && charsPrefix as bs

/-- JS `s.startsWith(pre)`. -/
def strStartsWith (s pre : String) : Bool :=
  charsPrefix pre.data s.data

/-- Fuel-driven splitter on character lists: at each position either the
separator is a prefix (emit the accumulated piece and skip it) or one
character is consumed.  The fuel is an upper bound on the number of steps;
callers pass `length + 1` so the fallback branch is unreachable. -/
def splitChars (sep : List Char) : Nat → List Char → List Char → List (List Char)
  | 0, rest, acc => [acc.reverse ++ rest]
  | fuel + 1, rest, acc =>
    if charsPrefix sep rest then
      acc.reverse :: splitChars sep fuel (rest.drop sep.length) []
    else
      match rest with
      | [] => [acc.reverse]
      | c :: cs => splitChars sep fuel cs (c :: acc)

/-- JS `s.split(sep)` for a non-empty separator (the executors never split on
the empty string; for completeness an empty separator yields `[s]`). -/
def strSplit (s sep : String) : List String :=
  if sep.data.isEmpty then [s]
  else (splitChars sep.data (s.data.length + 1) s.data []).map String.mk

/-- JS `parts.join(sep)`. -/
def strJoin (sep : String) : List String → String
  | [] => ""
  | [x] => x
  | x :: xs => x ++ sep ++ strJoin sep xs

/-- Occurrence count of a pattern, computed as the source's validator does:
`content.split(oldText).length - 1`. -/
def countOccurrences (s pat : String) : Nat :=
  (strSplit s pat).length - 1

/-- Containment test used by both validators and the `editFile` executor:
JS `content.includes(pat)`, expressed through the same split. -/
def strContains (s pat : String) : Bool :=
  decide (0 < countOccurrences s pat)

/-- JS `s.replace(old, new)` for string arguments: replace only the first
occurrence, leaving the rest intact. -/
def strReplaceFirst (s old new : String) : String :=
  match strSplit s old with
  | a :: b :: rest => a ++ new ++ strJoin old (b :: rest)
  | _ => s

/-- JS `s.split(old).join(new)`: replace every occurrence. -/
def strReplaceAll (s old new : String) : String :=
  strJoin new (strSplit s old)

/-- Node `path`-style resolution step: fold the segments of an absolute path,
dropping empty and "." segments and letting ".." pop the last segment
(at the root, ".." is dropped). -/
def normalizeSegs (segs : List String) : List String :=
  segs.foldl
    (fun acc s =>
      if s = "" ∨ s = "." then acc
      else if s = ".." then acc.dropLast
      else acc ++ [s])
    []

/-- Model of Node `path.resolve(filePath)` against a current working
directory: an absolute argument is normalized on its own, a relative one is
joined onto the cwd first. Mirrors `path.resolve` as used by every executor. -/
def resolvePath (cwd p : String) : String :=
  let base := if strStartsWith p "/" then ([] : List String) else strSplit cwd "/"
  let segs := normalizeSegs (base ++ strSplit p "/")
  "/" ++ strJoin "/" segs

/-- A filesystem node: a regular file with text content, or a directory. -/
inductive FSNode where
  | file (content : String)
  | dir
deriving DecidableEq, Repr

/-- The filesystem, modelled as an association list from resolved absolute
paths to nodes. -/
abbrev FS := List (String × FSNode)

/-- Look up the node stored at a resolved absolute path. -/
def FS.find (fs : FS) (p : String) : Option FSNode :=
  (List.find? (fun e => e.1 = p) fs).map (fun e => e.2)

/-- Paths strictly inside a directory path, in the path-tree sense:
the directory path followed by a separator is a string prefix. -/
def underDir (d p : String) : Bool :=
  strStartsWith p (d ++ "/")

/-- True when the entries of a directory are non-empty (`fs.readdir(p)`
returning at least one item). -/
def FS.dirNonEmpty (fs : FS) (p : String) : Bool :=
  fs.any (fun e => underDir p e.1)

/-- Remove the single entry at a path (Node `fs.unlink` / non-recursive
`fs.rmdir` on an empty directory). -/
def FS.removeOne (fs : FS) (p : String) : FS :=
  List.filter (fun e => ¬ e.1 = p) fs

/-- Remove an entry and everything below it (`fs.rmdir(p, recursive: true)`). -/
def FS.removeTree (fs : FS) (p : String) : FS :=
  List.filter (fun e => ¬ (e.1 = p ∨ underDir p e.1 = true)) fs

/-- Store file content at a resolved path, replacing any previous entry.
Modelled from the spec: `utils/file-ops.ts` (the `writeFile` helper) is not
under src/; per its call contract in `createFile`/`editFile` it writes the
content and reports success, failing only when the target is an existing
directory. -/
def FS.write (fs : FS) (p content : String) : Bool × FS :=
  match fs.find p with
  | some .dir => (false, fs)
  | _ => (true, (p, FSNode.file content) :: fs.removeOne p)

/-- Add a directory node at a resolved path. Modelled from the spec:
`utils/file-ops.ts` (`createDirectory`) is not under src/; it creates the
directory and reports success. -/
def FS.mkdir (fs : FS) (p : String) : Bool × FS :=
  match fs.find p with
  | some (.file _) => (false, fs)
  | _ => (true, (p, FSNode.dir) :: fs.removeOne p)

/-- A task of the global task list (`Task` in
`src/tools/builtin/tools.ts`); `status` is kept as a string, mirroring the
dynamically typed source. -/
structure Task where
  id : String
  description : String
  status : String := ""
  notes : Option String := none
  updated_at : Option String := none
deriving DecidableEq, Repr

/-- The global task list (`currentTaskList`). -/
structure TaskListState where
  user_query : String
  tasks : List Task
  created_at : String
deriving DecidableEq, Repr

/-- One entry of `update_tasks`' `task_updates` array. -/
structure TaskUpdate where
  id : String
  status : String
  notes : Option String := none
deriving DecidableEq, Repr

/-- Structured payloads carried in a tool result's `content` field.  The
source stores arbitrary JSON values; the cases cover the payloads the
executors actually produce (plain text, a created path record, rendered
search results, task-list snapshots). -/
inductive ToolContent where
  | text (s : String)
  | pathInfo (path kind : String)
  | taskSnapshot (t : TaskListState)
deriving DecidableEq, Repr

/-- Uniform tool result envelope (`ToolResult` in
`src/tools/builtin/tool-schemas.ts`), with `userRejected` as produced by the
approval gate in `Agent.executeToolCall`. -/
structure ToolResult where
  success : Bool
  content : Option ToolContent := none
  message : Option String := none
  error : Option String := none
  userRejected : Bool := false
deriving DecidableEq, Repr

/-- The `createToolResponse(success, data, message, error)` helper: on
success attach content and non-empty message, on failure attach error and
non-empty message. -/
def createToolResponse (success : Bool) (data : Option ToolContent := none)
    (message : String := "") (error : String := "") : ToolResult :=
  if success then
    { success := true, content := data
      message := if message = "" then none else some message }
  else
    { success := false, error := some error
      message := if message = "" then none else some message }

/-- Safety check helper for stating claims: a resolved path is contained in
the working directory when it equals it or lies below it in the path tree.
This is the property the spec asserts; the source instead tests a raw string
prefix (`targetPath.startsWith(currentWorkingDir)`). -/
def pathContained (cwd p : String) : Bool :=
  p = cwd || underDir cwd p

/-- The `deleteFile(filePath, recursive)` executor from
`src/tools/builtin/tool-schemas.ts`: resolves the target, refuses the cwd
itself, refuses any target failing the raw `startsWith(cwd)` string test,
then requires existence, requires `recursive` for non-empty directories, and
deletes. Returns the result together with the updated filesystem. -/
def deleteFile (cwd : String) (fs : FS) (filePath : String)
    (recursive : Bool := false) : ToolResult × FS :=
  let targetPath := resolvePath cwd filePath
  if targetPath = cwd then
    (createToolResponse false none "" "Error: Cannot delete the root project directory", fs)
  else if ¬ strStartsWith targetPath cwd then
    (createToolResponse false none "" "Error: Cannot delete files outside the project directory", fs)
  else
    match fs.find targetPath with
    | none => (createToolResponse false none "" "Error: Path not found", fs)
    | some .dir =>
        if ¬ recursive ∧ fs.dirNonEmpty targetPath then
          (createToolResponse false none "" "Error: Directory not empty, use recursive=true", fs)
        else
          (createToolResponse true none ("Deleted directory: " ++ filePath),
            if recursive then fs.removeTree targetPath else fs.removeOne targetPath)
    | some (.file _) =>
        (createToolResponse true none ("Deleted file: " ++ filePath), fs.removeOne targetPath)

/-- The session-scoped set of resolved paths that have been read
(`readFiles` in `src/tools/builtin/tools.ts`, a JS `Set`): insertion-ordered,
added only when absent. -/
def rsAdd (rs : List String) (p : String) : List String :=
  if rs.contains p then rs else rs ++ [p]

/-- The `readFile(filePath, startLine?, endLine?)` executor: existence,
file-kind and size checks, then either a full read or a 1-indexed line-range
slice; on success the resolved path is added to the read tracker (also for
partial reads).  The 50 MB ceiling is checked against the content length
(standing in for `stats.size`). -/
def readFile (cwd : String) (fs : FS) (rs : List String) (filePath : String)
    (startLine endLine : Option Nat) : ToolResult × List String :=
  let resolvedPath := resolvePath cwd filePath
  match fs.find resolvedPath with
  | none => (createToolResponse false none "" "Error: File not found", rs)
  | some .dir => (createToolResponse false none "" "Error: Path is not a file", rs)
  | some (.file content) =>
    if 50 * 1024 * 1024 < content.length then
      (createToolResponse false none "" "Error: File too large (max 50MB)", rs)
    else
      let lines := strSplit content "\n"
      match startLine with
      | some s =>
        let startIdx := s - 1
        let endIdx := match endLine with
          | some e => min lines.length e
          | none => lines.length
        if lines.length ≤ startIdx then
          (createToolResponse false none "" "Error: Start line exceeds file length", rs)
        else
          let selectedContent := strJoin "\n" ((lines.drop startIdx).take (endIdx - startIdx))
          (createToolResponse true (some (.text selectedContent))
            ("Read lines " ++ toString s ++ "-" ++ toString endIdx ++ " from " ++ filePath),
           rsAdd rs resolvedPath)
      | none =>
        (createToolResponse true (some (.text content))
          ("Read " ++ toString lines.length ++ " lines from " ++ filePath),
         rsAdd rs resolvedPath)

/-- The `createFile(filePath, content, fileType, overwrite)` executor. -/
def createFile (cwd : String) (fs : FS) (filePath content : String)
    (fileType : String) (overwrite : Bool) : ToolResult × FS :=
  let targetPath := resolvePath cwd filePath
  if (fs.find targetPath).isSome ∧ ¬ overwrite then
    (createToolResponse false none "" "Error: File already exists, use overwrite=true", fs)
  else if fileType = "directory" then
    match fs.mkdir targetPath with
    | (true, fs') =>
        (createToolResponse true (some (.pathInfo targetPath "directory"))
          ("Directory created: " ++ filePath), fs')
    | (false, _) => (createToolResponse false none "" "Error: Failed to create directory", fs)
  else if fileType = "file" then
    match fs.write targetPath content with
    | (true, fs') => (createToolResponse true none ("File created: " ++ filePath), fs')
    | (false, _) => (createToolResponse false none "" "Error: Failed to create file", fs)
  else
    (createToolResponse false none ""
      "Error: Invalid file_type, must be 'file' or 'directory'", fs)

/-- The `editFile(filePath, oldText, newText, replaceAll)` executor from
`src/tools/builtin/tool-schemas.ts`.  Its own comments assume the arguments
were pre-validated by the validation system; the function itself performs no
read-before-edit, presence or ambiguity check: it replaces the first
occurrence (JS `String.replace`) or, with `replaceAll`, every occurrence
(`split(old).join(new)`), and writes the result back. -/
def editFile (cwd : String) (fs : FS) (filePath oldText newText : String)
    (replaceAll : Bool) : ToolResult × FS :=
  let resolvedPath := resolvePath cwd filePath
  match fs.find resolvedPath with
  | some (.file originalContent) =>
    let updatedContent :=
      if replaceAll then strReplaceAll originalContent oldText newText
      else strReplaceFirst originalContent oldText newText
    match fs.write resolvedPath updatedContent with
    | (true, fs') =>
        let replacementCount :=
          if replaceAll then (strSplit originalContent oldText).length - 1 else 1
        (createToolResponse true none
          ("Replaced " ++ toString replacementCount ++ " occurrence(s) in " ++ filePath), fs')
    | (false, _) =>
        (createToolResponse false none "" "Error: Failed to write changes to file", fs)
  | _ =>
    (createToolResponse false none "" "Error: Failed to edit file - read threw", fs)

/-- Final path segment of a resolved path. -/
def lastSeg (p : String) : String :=
  match (strSplit p "/").reverse with
  | s :: _ => s
  | [] => ""

/-- Fuel-driven glob matcher with `*` and `?`, case-insensitive — the
semantics of the source's `matchesPattern` (the pattern is translated to an
anchored regex with the `i` flag, `*` ↦ `.*`, `?` ↦ `.`).  The fuel bounds
the combined remaining length. -/
def globChars : Nat → List Char → List Char → Bool
  | 0, _, _ => false
  | _ + 1, [], cs => cs.isEmpty
  | fuel + 1, p :: ps, cs =>
    if p = '*' then
      globChars fuel ps cs ||
        (match cs with
         | [] => false
         | _ :: cs' => globChars fuel (p :: ps) cs')
    else
      match cs with
      | [] => false
      | c :: cs' => (p = '?' || p.toLower = c.toLower) && globChars fuel ps cs'

/-- The source's `matchesPattern(filename, pattern)`. -/
def matchesPattern (filename pattern : String) : Bool :=
  if pattern = "*" then true
  else globChars (pattern.data.length + filename.data.length + 1) pattern.data filename.data

/-- True when a direct child of directory `d`. -/
def isDirectChild (d p : String) : Bool :=
  underDir d p && decide ((strSplit p "/").length = (strSplit d "/").length + 1)

/-- Tree-formatted rendering of a directory listing.  Modelled from the
spec: `utils/file-ops.ts` (`displayTree`) is not under src/; per the spec it
produces a text rendering of the entries under the directory, honouring the
pattern filter, the recursive flag and the hidden-file flag. -/
def displayTree (fs : FS) (dirPath pattern : String)
    (recursive showHidden : Bool) : String :=
  let entries := fs.filter (fun e =>
    underDir dirPath e.1 &&
    (recursive || isDirectChild dirPath e.1) &&
    (showHidden || !strStartsWith (lastSeg e.1) ".") &&
    matchesPattern (lastSeg e.1) pattern)
  strJoin "\n" (entries.map (fun e => e.1))

/-- The `listFiles(directory, pattern, recursive, showHidden)` executor. -/
def listFiles (cwd : String) (fs : FS) (directory pattern : String)
    (recursive showHidden : Bool) : ToolResult :=
  let dirPath := resolvePath cwd directory
  match fs.find dirPath with
  | none => createToolResponse false none "" "Error: Directory not found"
  | some (.file _) => createToolResponse false none "" "Error: Path is not a directory"
  | some .dir =>
      createToolResponse true
        (some (.text (displayTree fs dirPath pattern recursive showHidden)))
        ("Listed " ++ directory)

/-- Lower-case a string character-wise (JS case-insensitive matching). -/
def strToLower (s : String) : String :=
  String.mk (s.data.map Char.toLower)

/-- Node `path.extname`: the suffix from the final dot of the name, empty
for dotless names and for leading-dot names such as `.env`. -/
def extname (name : String) : String :=
  match strSplit name "." with
  | [] => ""
  | [_] => ""
  | p :: rest =>
    if p = "" ∧ rest.length = 1 then ""
    else "." ++ (p :: rest).getLast (by simp)

/-- The source's `isBinaryFile`: the extension, lowercased, is in a fixed
list of binary extensions. -/
def isBinaryFile (filename : String) : Bool :=
  let binaryExtensions := [".exe", ".dll", ".so", ".dylib", ".bin", ".obj", ".o", ".a", ".lib",
    ".jpg", ".jpeg", ".png", ".gif", ".bmp", ".ico", ".svg", ".webp",
    ".mp3", ".mp4", ".avi", ".mov", ".wmv", ".flv", ".webm",
    ".zip", ".tar", ".gz", ".bz2", ".rar", ".7z",
    ".pdf", ".doc", ".docx", ".xls", ".xlsx", ".ppt", ".pptx"]
  binaryExtensions.contains (strToLower (extname filename))

/-- Subsequence test for the fuzzy pattern type (the source inserts `.*`
between the pattern's characters). -/
def charsInOrder : List Char → List Char → Bool
  | [], _ => true
  | _ :: _, [] => false
  | p :: ps, c :: cs => if p = c then charsInOrder ps cs else charsInOrder (p :: ps) cs

/-- Number of matched lines contributed by one line under the given pattern
type.  `substring` and `exact` both compile to the escaped literal pattern in
the source, so both are literal occurrence tests; `fuzzy` is an in-order
character match.  User-supplied `regex` patterns are beyond a string-level
embedding and are modelled as literal matching; no claim depends on search
results. -/
def lineMatches (patternType : String) (caseSensitive : Bool)
    (pattern line : String) : Bool :=
  let pat := if caseSensitive then pattern else strToLower pattern
  let ln := if caseSensitive then line else strToLower line
  if patternType = "fuzzy" then charsInOrder pat.data ln.data
  else strContains ln pat

/-- File collection of `searchFiles` (`collectFiles` in the source): walk
below the search directory, skipping excluded and hidden directories
(`.config` and `.env` excepted), then filter files by extension list, file
pattern, exclusion patterns and the binary-extension list. -/
def collectFiles (fs : FS) (searchDir filePattern : String)
    (fileTypes : Option (List String)) (excludeDirs excludeFiles : List String) :
    List (String × String) :=
  (fs.filterMap (fun e =>
    match e.2 with
    | .file content =>
      if underDir searchDir e.1 then some (e.1, content) else none
    | .dir => none)).filter (fun pc =>
      let relSegs := strSplit (String.mk (pc.1.data.drop (searchDir.length + 1))) "/"
      let dirSegs := relSegs.dropLast
      let name := lastSeg pc.1
      dirSegs.all (fun seg =>
        !(excludeDirs.any (fun pat => matchesPattern seg pat)) &&
        (!strStartsWith seg "." || seg = ".config" || seg = ".env")) &&
      (match fileTypes with
       | some ts => ts.isEmpty || ts.contains (String.mk (extname name).data.tail)
       | none => true) &&
      matchesPattern name filePattern &&
      !(excludeFiles.any (fun pat => matchesPattern name pat)) &&
      !isBinaryFile name)

/-- Per-file matched lines, capped by the remaining result budget. -/
def fileMatchLines (patternType : String) (caseSensitive : Bool)
    (pattern content : String) (budget : Nat) : List (Nat × String) :=
  let lines := (strSplit content "\n").enum
  ((lines.filter (fun l => lineMatches patternType caseSensitive pattern l.2)).take
    budget).map (fun l => (l.1 + 1, l.2))

/-- The `searchFiles` executor: directory checks, default exclusions merged
with the caller's, file collection, then a line scan that stops at
`maxResults` matched lines.  Results are carried as rendered
`path:line:content` text. -/
def searchFiles (cwd : String) (fs : FS) (patternArg : Option String)
    (filePattern directory : String)
    (caseSensitive : Bool) (patternType : String)
    (fileTypes excludeDirs excludeFiles : Option (List String))
    (maxResults : Nat) : ToolResult :=
  let searchDir := resolvePath cwd directory
  match fs.find searchDir with
  | none => createToolResponse false none "" "Error: Directory not found"
  | some (.file _) => createToolResponse false none "" "Error: Path is not a directory"
  | some .dir =>
    match patternArg with
    | none => createToolResponse false none "" "Error: Invalid regex pattern"
    | some pattern =>
    let defaultExcludeDirs := [".git", "node_modules", ".next", "dist", "build", ".cache"]
    let defaultExcludeFiles := ["*.log", "*.tmp", "*.cache", "*.lock"]
    let finalExcludeDirs := defaultExcludeDirs ++ excludeDirs.getD []
    let finalExcludeFiles := defaultExcludeFiles ++ excludeFiles.getD []
    let filesToSearch := collectFiles fs searchDir filePattern fileTypes finalExcludeDirs finalExcludeFiles
    if filesToSearch.isEmpty then
      createToolResponse true (some (.text "")) "No files found matching criteria"
    else
      let scanned := filesToSearch.foldl
        (fun (acc : Nat × List String) pc =>
          if maxResults ≤ acc.1 then acc
          else
            let ms := fileMatchLines patternType caseSensitive pattern pc.2 (maxResults - acc.1)
            (acc.1 + ms.length,
             acc.2 ++ ms.map (fun m => pc.1 ++ ":" ++ toString m.1 ++ ":" ++ m.2)))
        (0, [])
      let fileCount := (scanned.2.map (fun l => (strSplit l ":").headD "")).dedup.length
      createToolResponse true (some (.text (strJoin "\n" scanned.2)))
        ("Found " ++ toString scanned.1 ++ " match(es) in " ++ toString fileCount ++ " file(s)")

/-- Outcome of the external shell, an oracle of the host: the spec treats
subprocess mechanics as out of scope. -/
inductive CmdOutcome where
  | ok (stdout stderr : String)
  | timedOut
  | failed
deriving DecidableEq, Repr

/-- The `executeCommand(command, commandType, workingDirectory, timeout)`
executor: command-type validation, working-directory existence check (the
temporary `chdir` is scope-restored, so the model's cwd is unchanged), python
wrapping as an inline interpreter invocation, then the shell oracle. -/
def executeCommand (cwd : String) (fs : FS)
    (shell : String → String → Nat → CmdOutcome)
    (command commandType : String) (workingDirectory : Option String)
    (timeout : Nat) : ToolResult :=
  if ¬ (commandType = "bash" ∨ commandType = "python" ∨ commandType = "setup" ∨ commandType = "run") then
    createToolResponse false none "" "Error: Invalid command_type"
  else
    let runDir := match workingDirectory with
      | some wd => resolvePath cwd wd
      | none => cwd
    let wdMissing := match workingDirectory with
      | some wd => (fs.find (resolvePath cwd wd)).isNone
      | none => false
    if wdMissing then
      createToolResponse false none "" "Error: Working directory not found"
    else
      let execCommand :=
        if commandType = "python" then
          "python -c \"" ++ strReplaceAll command "\"" "\\\"" ++ "\""
        else command
      match shell execCommand runDir timeout with
      | .ok stdout stderr =>
          createToolResponse true (some (.text ("stdout: " ++ stdout ++ "\nstderr: " ++ stderr)))
            "Command executed successfully"
      | .timedOut => createToolResponse false none "" "Error: Command timed out"
      | .failed => createToolResponse false none "" "Error: Failed to execute command"

/-- True for a defined, non-empty optional string (JS truthiness). -/
def truthyStr (o : Option String) : Bool :=
  match o with
  | some s => !(s = "")
  | none => false

/-- Valid task statuses. -/
def validStatus (s : String) : Bool :=
  s = "pending" || s = "in_progress" || s = "completed"

/-- The validation loop of `createTasks`: each task needs truthy `id` and
`description`; a falsy status defaults to `pending`; the status must be one
of the enum values.  Returns the normalized tasks or the first error. -/
def validateNewTasks : Nat → List Task → Except String (List Task)
  | _, [] => .ok []
  | i, t :: ts =>
    if t.id = "" ∨ t.description = "" then
      .error ("Error: Task " ++ toString i ++ " missing required fields (id, description)")
    else
      let t' := if t.status = "" then { t with status := "pending" } else t
      if ¬ validStatus t'.status then
        .error ("Error: Invalid status '" ++ t'.status ++ "' for task " ++ t'.id)
      else (validateNewTasks (i + 1) ts).map (t' :: ·)

/-- The `createTasks(userQuery, tasks)` executor: validate, then replace the
global task list; the returned snapshot is a deep copy (pure values here). -/
def createTasks (now : String) (taskList : Option TaskListState)
    (userQuery : String) (tasks : List Task) :
    ToolResult × Option TaskListState :=
  match validateNewTasks 0 tasks with
  | .error e => (createToolResponse false none "" e, taskList)
  | .ok normalized =>
    let newList : TaskListState :=
      { user_query := userQuery, tasks := normalized, created_at := now }
    (createToolResponse true (some (.taskSnapshot newList))
      ("Created task list with " ++ toString tasks.length ++ " tasks for: " ++ userQuery),
     some newList)

/-- Apply one update to the first task with a matching id (`for ... break`
in the source): set status, overwrite notes when truthy, stamp `updated_at`.
`none` when no task matches. -/
def updateTaskIn (now : String) : List Task → TaskUpdate → Option (List Task)
  | [], _ => none
  | t :: ts, u =>
    if t.id = u.id then
      some ({ t with
        status := u.status
        notes := if truthyStr u.notes then u.notes else t.notes
        updated_at := some now } :: ts)
    else (updateTaskIn now ts u).map (t :: ·)

/-- The update loop of `updateTasks`: sequential and not atomic — on a
validation failure or an unknown id it stops with an error, but the tasks
already updated in place stay updated. -/
def updateTasksLoop (now : String) (tasks : List Task) :
    List TaskUpdate → Option String × List Task
  | [] => (none, tasks)
  | u :: us =>
    if u.id = "" ∨ u.status = "" then
      (some "Error: Task update missing required fields (id, status)", tasks)
    else if ¬ validStatus u.status then
      (some ("Error: Invalid status '" ++ u.status ++ "'"), tasks)
    else
      match updateTaskIn now tasks u with
      | none => (some ("Error: Task '" ++ u.id ++ "' not found"), tasks)
      | some tasks' => updateTasksLoop now tasks' us

/-- The `updateTasks(taskUpdates)` executor: requires an existing task list,
then applies the update loop; the mutations made before a failing update
persist in the global list. -/
def updateTasks (now : String) (taskList : Option TaskListState)
    (taskUpdates : List TaskUpdate) : ToolResult × Option TaskListState :=
  match taskList with
  | none =>
    (createToolResponse false none "" "Error: No task list exists. Create tasks first.", none)
  | some tl =>
    match updateTasksLoop now tl.tasks taskUpdates with
    | (some e, tasks') =>
        (createToolResponse false none "" e, some { tl with tasks := tasks' })
    | (none, tasks') =>
        let newList := { tl with tasks := tasks' }
        (createToolResponse true (some (.taskSnapshot newList))
          ("Updated " ++ toString taskUpdates.length ++ " task(s)"), some newList)

/-- Specification-side fold: apply a batch of valid updates one after the
other (used to state what `updateTasks` leaves behind when a later update
fails). -/
def applyUpdatesSeq (now : String) (tasks : List Task) : List TaskUpdate → List Task
  | [] => tasks
  | u :: us =>
    match updateTaskIn now tasks u with
    | some tasks' => applyUpdatesSeq now tasks' us
    | none => tasks

/-- The parsed tool-call arguments, modelling the JSON object
`JSON.parse(toolCall.function.arguments)` as a record of optional fields
(absent field = JS `undefined`). -/
structure ArgsDict where
  file_path : Option String := none
  content : Option String := none
  file_type : Option String := none
  overwrite : Option Bool := none
  old_text : Option String := none
  new_text : Option String := none
  replace_all : Option Bool := none
  recursive : Option Bool := none
  start_line : Option Nat := none
  end_line : Option Nat := none
  directory : Option String := none
  pattern : Option String := none
  show_hidden : Option Bool := none
  file_pattern : Option String := none
  case_sensitive : Option Bool := none
  pattern_type : Option String := none
  file_types : Option (List String) := none
  exclude_dirs : Option (List String) := none
  exclude_files : Option (List String) := none
  max_results : Option Nat := none
  context_lines : Option Nat := none
  group_by_file : Option Bool := none
  command : Option String := none
  command_type : Option String := none
  working_directory : Option String := none
  timeout : Option Nat := none
  user_query : Option String := none
  tasks : Option (List Task) := none
  task_updates : Option (List TaskUpdate) := none
deriving DecidableEq, Repr

/-- `validateReadBeforeEdit` from `src/tools/validators.ts`: the resolved
path must be in the read tracker.  The tracker is installed at module load
(`setReadFilesTracker(readFiles)` in tools.ts), so the null-tracker fallback
of the source never fires in a running process and the model keeps the
tracker always present. -/
def validateReadBeforeEdit (cwd : String) (rs : List String) (filePath : String) : Bool :=
  rs.contains (resolvePath cwd filePath)

/-- `getReadBeforeEditError` from `src/tools/validators.ts`. -/
def getReadBeforeEditError (filePath : String) : String :=
  "File must be read before editing. Use read_file tool first: " ++ filePath

/-- Result shape of the standalone validation system
(`ValidationResult` in the class-based validators module). -/
structure ValidationResult where
  isValid : Bool
  errors : List String
deriving DecidableEq, Repr

/-- The `EditFileValidator.validateArgs` check of the standalone validation
system: required parameters, existence, file kind, read-before-edit,
presence of `old_text`, and — when `replace_all` is not set — uniqueness of
the match.  No code in the repository invokes it (`validateToolArgs` has no
caller); it is embedded to witness what the validation system would decide. -/
def editFileValidatorCheck (cwd : String) (fs : FS) (rs : List String)
    (args : ArgsDict) : ValidationResult :=
  if ¬ truthyStr args.file_path ∨ ¬ truthyStr args.old_text ∨ args.new_text = none then
    { isValid := false, errors := ["missing required parameters"] }
  else
    let filePath := args.file_path.getD ""
    let oldText := args.old_text.getD ""
    let replaceAll := args.replace_all.getD false
    let resolvedPath := resolvePath cwd filePath
    match fs.find resolvedPath with
    | none => { isValid := false, errors := ["File not found"] }
    | some .dir => { isValid := false, errors := ["Path is not a file"] }
    | some (.file originalContent) =>
      if ¬ rs.contains resolvedPath then
        { isValid := false,
          errors := ["File must be read before editing. Use read_file tool first: " ++ filePath] }
      else if ¬ strContains originalContent oldText then
        { isValid := false, errors := ["The specified old_text was not found in the file"] }
      else if ¬ replaceAll ∧ 1 < countOccurrences originalContent oldText then
        { isValid := false,
          errors := ["Found " ++ toString (countOccurrences originalContent oldText) ++
            " matches for old_text. Use replace_all=true or provide more specific text to ensure unique match"] }
      else { isValid := true, errors := [] }

/-- The tool-visible world state: the filesystem, the read tracker and the
global task list (module-level state of `src/tools/builtin/tools.ts`). -/
structure ToolState where
  fs : FS
  readSet : List String
  taskList : Option TaskListState
deriving DecidableEq, Repr

/-- `executeTool(toolName, toolArgs)` from `src/tools/builtin/tools.ts`:
registry lookup, per-tool argument extraction with the source's JS default
parameters, dispatch.  A required argument that is absent surfaces as the
corresponding executor's catch-path failure, modelling the `TypeError`
thrown by `path.resolve(undefined)` and friends inside the executor's own
try/catch. -/
def executeTool (cwd now : String) (shell : String → String → Nat → CmdOutcome)
    (ts : ToolState) (toolName : String) (d : ArgsDict) : ToolResult × ToolState :=
  if toolName = "read_file" then
    match d.file_path with
    | none => (createToolResponse false none "" "Error: Failed to read file", ts)
    | some fp =>
      let (r, rs') := readFile cwd ts.fs ts.readSet fp d.start_line d.end_line
      (r, { ts with readSet := rs' })
  else if toolName = "create_file" then
    match d.file_path with
    | none => (createToolResponse false none "" "Error: Failed to create file or directory", ts)
    | some fp =>
      let ft := d.file_type.getD "file"
      if ft ≠ "directory" ∧ d.content = none then
        (createToolResponse false none "" "Error: Failed to create file or directory", ts)
      else
        let (r, fs') := createFile cwd ts.fs fp (d.content.getD "") ft (d.overwrite.getD false)
        (r, { ts with fs := fs' })
  else if toolName = "edit_file" then
    match d.file_path, d.old_text, d.new_text with
    | some fp, some ot, some nt =>
      let (r, fs') := editFile cwd ts.fs fp ot nt (d.replace_all.getD false)
      (r, { ts with fs := fs' })
    | _, _, _ =>
      (createToolResponse false none "" "Error: Failed to edit file - read threw", ts)
  else if toolName = "delete_file" then
    match d.file_path with
    | none => (createToolResponse false none "" "Error: Failed to delete", ts)
    | some fp =>
      let (r, fs') := deleteFile cwd ts.fs fp (d.recursive.getD false)
      (r, { ts with fs := fs' })
  else if toolName = "list_files" then
    (listFiles cwd ts.fs (d.directory.getD ".") (d.pattern.getD "*")
      (d.recursive.getD false) (d.show_hidden.getD false), ts)
  else if toolName = "search_files" then
    (searchFiles cwd ts.fs d.pattern (d.file_pattern.getD "*") (d.directory.getD ".")
      (d.case_sensitive.getD false) (d.pattern_type.getD "substring")
      d.file_types d.exclude_dirs d.exclude_files (d.max_results.getD 100), ts)
  else if toolName = "execute_command" then
    (executeCommand cwd ts.fs shell (d.command.getD "") (d.command_type.getD "")
      d.working_directory (d.timeout.getD 30000), ts)
  else if toolName = "create_tasks" then
    match d.tasks with
    | none => (createToolResponse false none "" "Error: Failed to create tasks - TypeError", ts)
    | some tasks =>
      let (r, tl') := createTasks now ts.taskList (d.user_query.getD "undefined") tasks
      (r, { ts with taskList := tl' })
  else if toolName = "update_tasks" then
    match d.task_updates with
    | none => (createToolResponse false none "" "Error: Failed to update tasks - TypeError", ts)
    | some updates =>
      let (r, tl') := updateTasks now ts.taskList updates
      (r, { ts with taskList := tl' })
  else
    (createToolResponse false none "" "Error: Unknown tool", ts)

/-- `SAFE_TOOLS` from `src/tools/tool-schemas.ts`. -/
def SAFE_TOOLS : List String :=
  ["read_file", "list_files", "search_files", "create_tasks", "update_tasks"]

/-- `APPROVAL_REQUIRED_TOOLS` from `src/tools/tool-schemas.ts`. -/
def APPROVAL_REQUIRED_TOOLS : List String :=
  ["create_file", "edit_file"]

/-- `DANGEROUS_TOOLS` from `src/tools/tool-schemas.ts`. -/
def DANGEROUS_TOOLS : List String :=
  ["delete_file", "execute_command"]

/-- Message roles. -/
inductive Role where
  | system
  | user
  | assistant
  | tool
deriving DecidableEq, Repr

/-- A tool-call request as emitted by the backend.  `args` models
`JSON.parse(function.arguments)`: `none` is a parse failure of the raw
argument text. -/
structure ToolCallRequest where
  id : String
  name : String
  args : Option ArgsDict := none
deriving DecidableEq, Repr

/-- A conversation message (the `Message` interface of `src/core/agent.ts`). -/
structure Message where
  role : Role
  content : String
  tool_calls : Option (List ToolCallRequest) := none
  tool_call_id : Option String := none
deriving DecidableEq, Repr

/-- The approval callback's response
(`{ approved: boolean; autoApproveSession?: boolean }`); an absent
`autoApproveSession` is `false`. -/
structure ApprovalResponse where
  approved : Bool
  autoApproveSession : Bool := false
deriving DecidableEq, Repr

/-- The host environment of the agent: the working directory, the wall
clock, the external shell, credential availability, and the optional
observer callbacks the control loop consults. -/
structure Host where
  cwd : String
  now : String := ""
  shell : String → String → Nat → CmdOutcome := fun _ _ _ => .failed
  apiKeyAvailable : Bool := true
  onToolApproval : Option (String → ArgsDict → ApprovalResponse) := none
  onError : Option (String → Bool) := none
  onMaxIterations : Option (Nat → Bool) := none

/-- The agent's mutable state: conversation, session standing-approval
flag, interruption flag, client initialization, and the tool-layer world. -/
structure AgentState where
  messages : List Message
  sessionAutoApprove : Bool := false
  isInterrupted : Bool := false
  hasClient : Bool := false
  tools : ToolState
deriving DecidableEq, Repr

/-- Observable events of one run, for stating which collaborators were
consulted: a backend request issued, a tool started/executed/ended, the
approval callback invoked, the error callback invoked, the final message
surfaced. -/
inductive Event where
  | backendRequested
  | toolStarted (name : String)
  | approvalAsked (name : String)
  | toolExecuted (name : String)
  | toolEnded (name : String)
  | errorAsked (msg : String)
  | finalMessage (content : String)
deriving DecidableEq, Repr

/-- Strip the hallucinated `repo_browser.` prefix
(`Agent.executeToolCall`). -/
def stripToolName (n : String) : String :=
  if strStartsWith n "repo_browser." then String.mk (n.data.drop "repo_browser.".length)
  else n

/-- The gate's interruption result. -/
def interruptedResult : ToolResult :=
  { success := false, error := some "Tool execution interrupted by user", userRejected := true }

/-- The gate's rejection result
(`Tool execution canceled by user`, `userRejected: true`). -/
def canceledResult : ToolResult :=
  { success := false, error := some "Tool execution canceled by user", userRejected := true }

/-- The per-call result for an argument deserialization failure (the catch
around `JSON.parse`); the interpolated JS error text is abbreviated. -/
def truncatedResult : ToolResult :=
  { success := false,
    error := some "Tool arguments truncated: parse failure. Please break this into smaller pieces or use shorter content." }

/-- Shared tail of `Agent.executeToolCall` once the gate admits the call:
run `executeTool` and notify `onToolEnd`. -/
def execApproved (host : Host) (st : AgentState) (toolName : String) (d : ArgsDict)
    (evs : List Event) : ToolResult × AgentState × List Event :=
  let r := executeTool host.cwd host.now host.shell st.tools toolName d
  (r.1, { st with tools := r.2 }, evs ++ [.toolExecuted toolName, .toolEnded toolName])

/-- The read-before-edit guard of `Agent.executeToolCall`: it fires for an
`edit_file` call with a truthy `file_path` whose resolved path is not in the
read tracker. -/
def editValidationFails (host : Host) (st : AgentState) (toolName : String)
    (d : ArgsDict) : Bool :=
  toolName = "edit_file" && truthyStr d.file_path &&
    !(validateReadBeforeEdit host.cwd st.tools.readSet (d.file_path.getD ""))

/-- `Agent.executeToolCall` from `src/core/agent.ts`: strip the namespace
prefix, parse arguments, run the read-before-edit validation for
`edit_file`, gate by safety class (dangerous always prompts; approval-
required prompts unless session standing approval is active; everything
else is never gated), set the session flag when the response requests it —
before the approved check — and execute. -/
def executeToolCall (host : Host) (st : AgentState) (tc : ToolCallRequest) :
    ToolResult × AgentState × List Event :=
  let toolName := stripToolName tc.name
  match tc.args with
  | none => (truncatedResult, st, [])
  | some toolArgs =>
    let ev0 := [Event.toolStarted toolName]
    if editValidationFails host st toolName toolArgs then
      ({ success := false, error := some (getReadBeforeEditError (toolArgs.file_path.getD "")) },
        st, ev0 ++ [.toolEnded toolName])
    else
      let isDangerous := DANGEROUS_TOOLS.contains toolName
      let requiresApproval := APPROVAL_REQUIRED_TOOLS.contains toolName
      let needsApproval := isDangerous || requiresApproval
      let canAutoApprove := requiresApproval && !isDangerous && st.sessionAutoApprove
      if needsApproval && !canAutoApprove then
        match host.onToolApproval with
        | none => (canceledResult, st, ev0 ++ [.toolEnded toolName])
        | some f =>
          if st.isInterrupted then (interruptedResult, st, ev0 ++ [.toolEnded toolName])
          else
            let approvalResult := f toolName toolArgs
            let ev1 := ev0 ++ [Event.approvalAsked toolName]
            -- the source re-checks the interruption flag after the await; in
            -- this sequential model the flag cannot change during the await,
            -- so the second check sees the same value
            if st.isInterrupted then (interruptedResult, st, ev1 ++ [.toolEnded toolName])
            else
              let st1 :=
                if approvalResult.autoApproveSession && requiresApproval && !isDangerous then
                  { st with sessionAutoApprove := true }
                else st
              if !approvalResult.approved then
                (canceledResult, st1, ev1 ++ [.toolEnded toolName])
              else execApproved host st1 toolName toolArgs ev1
      else execApproved host st toolName toolArgs ev0

/-- Minimal JSON string escaping for serialized tool results. -/
def jsonEscape (s : String) : String :=
  strReplaceAll (strReplaceAll (strReplaceAll s "\\" "\\\\") "\"" "\\\"") "\n" "\\n"

/-- Serialize a content payload (task snapshots abbreviated; no claim reads
the serialized text). -/
def serializeContent : ToolContent → String
  | .text s => "\"" ++ jsonEscape s ++ "\""
  | .pathInfo p k =>
      "\x7b\"path\":\"" ++ jsonEscape p ++ "\",\"type\":\"" ++ jsonEscape k ++ "\"\x7d"
  | .taskSnapshot t =>
      "\x7b\"user_query\":\"" ++ jsonEscape t.user_query ++ "\",\"tasks\":" ++
        toString t.tasks.length ++ "\x7d"

/-- `JSON.stringify(result)` for the tool-role message. -/
def serializeToolResult (r : ToolResult) : String :=
  "\x7b\"success\":" ++ (if r.success then "true" else "false") ++
  (match r.content with
   | some c => ",\"content\":" ++ serializeContent c
   | none => "") ++
  (match r.message with
   | some m => ",\"message\":\"" ++ jsonEscape m ++ "\""
   | none => "") ++
  (match r.error with
   | some e => ",\"error\":\"" ++ jsonEscape e ++ "\""
   | none => "") ++
  (if r.userRejected then ",\"userRejected\":true" else "") ++ "\x7d"

/-- The tool-role message appended for every processed tool call. -/
def toolMessage (tc : ToolCallRequest) (r : ToolResult) : Message :=
  { role := .tool, content := serializeToolResult r, tool_call_id := some tc.id }

/-- The system-role note appended after a user rejection; it cites the raw
(unstripped) `toolCall.function.name`. -/
def rejectionNote (tc : ToolCallRequest) : Message :=
  { role := .system,
    content := "The user rejected the " ++ tc.name ++
      " tool execution. The response has been terminated. Please wait for the user's next instruction." }

/-- How a tool-call batch ended. -/
inductive BatchStop where
  | completed
  | rejected
  | interrupted
deriving DecidableEq, Repr

/-- The `for (const toolCall of message.tool_calls)` loop of `Agent.chat`:
check the interruption flag before each call, execute, always append the
tool-role result message, and on a `userRejected` result append the
system-role note and stop. -/
def runToolCalls (host : Host) : AgentState → List ToolCallRequest →
    AgentState × List Event × BatchStop
  | st, [] => (st, [], .completed)
  | st, tc :: rest =>
    if st.isInterrupted then (st, [], .interrupted)
    else
      let r := executeToolCall host st tc
      let st2 := { r.2.1 with messages := r.2.1.messages ++ [toolMessage tc r.1] }
      if r.1.userRejected then
        ({ st2 with messages := st2.messages ++ [rejectionNote tc] }, r.2.2, .rejected)
      else
        let q := runToolCalls host st2 rest
        (q.1, r.2.2 ++ q.2.1, q.2.2)

/-- One scripted backend answer: a normal reply (`tool_calls` is `none`
when the field is absent — a JS empty array is present and truthy), a
thrown failure with an optional HTTP status, or an abort of the in-flight
request. -/
inductive BackendResponse where
  | reply (content : String) (reasoning : Option String)
      (tool_calls : Option (List ToolCallRequest))
  | failure (status : Option Nat) (msg : String)
  | aborted
deriving DecidableEq, Repr

/-- How a chat turn ended: a normal return, a raised error (the 401 throw
or the missing-key throw), or the script ran out while the loop wanted
another backend call. -/
inductive ChatOutcome where
  | done
  | fatal (msg : String)
  | outOfScript
deriving DecidableEq, Repr

/-- A finished chat run: outcome, final state, observable events, and the
script left unconsumed (each consumed entry is one backend request). -/
structure ChatRun where
  outcome : ChatOutcome
  state : AgentState
  events : List Event
  restScript : List BackendResponse
deriving DecidableEq, Repr

/-- The iteration ceiling of `Agent.chat`. -/
def maxIterations : Nat := 50

/-- The error message the loop derives from a thrown backend failure: an
API error with a status is rendered with it, anything else with the plain
`Error:` form (the nested `error.error.message` refinement of the source is
collapsed into the message text). -/
def backendErrorMessage (status : Option Nat) (msg : String) : String :=
  match status with
  | some s => "API Error (" ++ toString s ++ "): " ++ msg
  | none => "Error: " ++ msg

/-- The request/execute/continue loop of `Agent.chat`, driven by a scripted
backend.  Mirrors the nested while loops: the iteration ceiling is consulted
before each cycle (continue resets the counter, otherwise the turn ends),
then the interruption flag, then one backend response is consumed: an abort
returns silently, a failure either raises (401), asks `onError` (retry keeps
the history untouched; refusal appends a failure note and returns) or — with
no callback — appends a recovery note and continues; a reply with tool calls
appends the assistant message, processes the batch and continues unless the
batch was rejected or interrupted; a reply without tool calls is the final
answer. -/
def chatLoop (host : Host) (st : AgentState) (script : List BackendResponse)
    (iteration : Nat) : ChatRun :=
  if 50 ≤ iteration then
    match host.onMaxIterations with
    | none => ⟨.done, st, [], script⟩
    | some f =>
      if f maxIterations then chatLoop host st script 0
      else ⟨.done, st, [], script⟩
  else if st.isInterrupted then ⟨.done, st, [], script⟩
  else
    match script with
    | [] => ⟨.outOfScript, st, [], []⟩
    | resp :: rest =>
      match resp with
      | .aborted => ⟨.done, st, [.backendRequested], rest⟩
      | .failure status msg =>
        let errorMessage := backendErrorMessage status msg
        if status = some 401 then
          ⟨.fatal (errorMessage ++ ". Please check your API key and use /login to set a valid key."),
            st, [.backendRequested], rest⟩
        else
          match host.onError with
          | some f =>
            if f errorMessage then
              let r := chatLoop host st rest (iteration + 1)
              ⟨r.outcome, r.state, .backendRequested :: .errorAsked errorMessage :: r.events,
                r.restScript⟩
            else
              ⟨.done,
                { st with messages := st.messages ++
                    [{ role := .system,
                       content := "Request failed with error: " ++ errorMessage ++
                         ". User chose not to retry." }] },
                [.backendRequested, .errorAsked errorMessage], rest⟩
          | none =>
            let st' := { st with messages := st.messages ++
              [{ role := .system,
                 content := "Previous API request failed with error: " ++ errorMessage ++
                   ". Please try a different approach or ask the user for clarification." }] }
            let r := chatLoop host st' rest (iteration + 1)
            ⟨r.outcome, r.state, .backendRequested :: r.events, r.restScript⟩
      | .reply content _reasoning toolCalls =>
        match toolCalls with
        | some tcs =>
          let st1 := { st with messages := st.messages ++
            [{ role := .assistant, content := content, tool_calls := some tcs }] }
          match runToolCalls host st1 tcs with
          | (st2, evs, .completed) =>
            let r := chatLoop host st2 rest (iteration + 1)
            ⟨r.outcome, r.state, .backendRequested :: (evs ++ r.events), r.restScript⟩
          | (st2, evs, .rejected) => ⟨.done, st2, .backendRequested :: evs, rest⟩
          | (st2, evs, .interrupted) => ⟨.done, st2, .backendRequested :: evs, rest⟩
        | none =>
          ⟨.done,
            { st with messages := st.messages ++ [{ role := .assistant, content := content }] },
            [.backendRequested, .finalMessage content], rest⟩
termination_by 2 * script.length + (if 50 ≤ iteration then 1 else 0)
decreasing_by all_goals (simp_all <;> split_ifs <;> omega)

/-- `Agent.chat(userInput)`: reset the interruption flag, initialize the
client (raising when no credential source exists), append the user message
and enter the loop. -/
def chat (host : Host) (st : AgentState) (userInput : String)
    (script : List BackendResponse) : ChatRun :=
  let st0 := { st with isInterrupted := false }
  if ¬ st0.hasClient ∧ ¬ host.apiKeyAvailable then
    ⟨.fatal "No API key available. Please use /login to set your Groq API key.",
      st0, [], script⟩
  else
    let st1 := { st0 with
      hasClient := true
      messages := st0.messages ++ [{ role := .user, content := userInput }] }
    chatLoop host st1 script 0

/-- `Agent.interrupt()`: set the flag, abort any in-flight request, and
append the interruption note — a system-role message. -/
def interruptOp (st : AgentState) : AgentState :=
  { st with
    isInterrupted := true
    messages := st.messages ++
      [{ role := .system, content := "User has interrupted the request." }] }

/-- `Agent.clearHistory()`: keep exactly the messages whose role is
`system`. -/
def clearHistoryOp (st : AgentState) : AgentState :=
  { st with messages := st.messages.filter (fun m => m.role = Role.system) }

end VibeCli

namespace VibeCli

/-- Claim C1 failing input: working directory `/a/b`, a file in the sibling
directory `/a/bc`. -/
def c1cwd : String := "/a/b"

/-- Claim C1 failing input filesystem: the project root and a file
`/a/bc/x.txt` outside it. -/
def c1fs : FS := [("/a/b", FSNode.dir), ("/a/bc/x.txt", FSNode.file "hi")]

/-- Claim C2 failing input host: working directory `/w`. -/
def c2host : Host := { cwd := "/w" }

/-- Claim C2 failing input agent state: session standing approval active,
the file `/w/f.txt` with content `xx` already read. -/
def c2st : AgentState :=
  { messages := []
    sessionAutoApprove := true
    hasClient := true
    tools := { fs := [("/w", FSNode.dir), ("/w/f.txt", FSNode.file "xx")]
               readSet := ["/w/f.txt"]
               taskList := none } }

/-- Claim C2 failing input arguments: `old_text` `x` occurs twice in `xx`,
`replace_all` is absent (defaults to false). -/
def c2args : ArgsDict := { file_path := some "f.txt", old_text := some "x", new_text := some "y" }

/-- Claim C2 failing input tool call. -/
def c2tc : ToolCallRequest := { id := "call1", name := "edit_file", args := some c2args }

/-- Claim C9 witness host: the approval callback rejects while granting
session approval. -/
def c9host : Host :=
  { cwd := "/w"
    onToolApproval := some (fun _ _ => { approved := false, autoApproveSession := true }) }

/-- Claim C9 witness agent state. -/
def c9st : AgentState :=
  { messages := [], tools := { fs := [], readSet := [], taskList := none } }

/-- Claim C9 witness tool call: a `create_file`. -/
def c9tc : ToolCallRequest :=
  { id := "1", name := "create_file"
    args := some { file_path := some "a.txt", content := some "hi" } }

/-- Claim C4 witness host: an approval callback that approves. -/
def c4host : Host :=
  { cwd := "/w", onToolApproval := some (fun _ _ => { approved := true }) }

/-- Claim C4 witness agent state: session standing approval active. -/
def c4st : AgentState :=
  { messages := [], sessionAutoApprove := true
    tools := { fs := [], readSet := [], taskList := none } }

/-- Claim C7 witness host. -/
def c7host : Host := { cwd := "/w" }

/-- Claim C7 witness state: one system message, a readable file. -/
def c7st : AgentState :=
  { messages := [{ role := Role.system, content := "sys" }]
    tools := { fs := [("/w", FSNode.dir), ("/w/g.txt", FSNode.file "abc")]
               readSet := [], taskList := none } }

/-- Claim C7 witness batch: two safe calls. -/
def c7tcs : List ToolCallRequest :=
  [{ id := "a", name := "read_file", args := some { file_path := some "g.txt" } },
   { id := "b", name := "list_files", args := some {} }]

/-- Claim C6 witness host: the approval callback rejects every request. -/
def c6host : Host :=
  { cwd := "/w", onToolApproval := some (fun _ _ => { approved := false }) }

/-- Claim C6 witness state. -/
def c6st : AgentState :=
  { messages := [{ role := Role.system, content := "sys" }]
    tools := { fs := [("/w", FSNode.dir), ("/w/g.txt", FSNode.file "abc")]
               readSet := [], taskList := none } }

/-- Claim C6 witness: call 1 of the batch (a safe read). -/
def c6pre : List ToolCallRequest :=
  [{ id := "a", name := "read_file", args := some { file_path := some "g.txt" } }]

/-- Claim C6 witness: call 2 of the batch (a delete the user rejects). -/
def c6tk : ToolCallRequest :=
  { id := "b", name := "delete_file", args := some { file_path := some "g.txt" } }

/-- Claim C6 witness: call 3 of the batch (never executed). -/
def c6post : List ToolCallRequest :=
  [{ id := "c", name := "read_file", args := some { file_path := some "g.txt" } }]

/-- Claim C6 witness: the script remaining after the first response. -/
def c6rest : List BackendResponse := [BackendResponse.reply "done" none none]

/-- Claim C6 witness: the state after the assistant message is appended. -/
def c6st1 : AgentState :=
  { messages := c6st.messages ++
      [{ role := Role.assistant, content := "thinking",
         tool_calls := some (c6pre ++ c6tk :: c6post) }]
    sessionAutoApprove := c6st.sessionAutoApprove
    isInterrupted := c6st.isInterrupted
    hasClient := c6st.hasClient
    tools := c6st.tools }

/-- Claim C8 witness host: `onError` retries exactly when the message
mentions status 500. -/
def c8host : Host :=
  { cwd := "/w", onError := some (fun m => m = backendErrorMessage (some 500) "boom") }

/-- Claim C8 witness state. -/
def c8st : AgentState :=
  { messages := [{ role := Role.system, content := "sys" }]
    tools := { fs := [], readSet := [], taskList := none } }

/-- Claim C10 witness task list: one pending task. -/
def c10tl : TaskListState :=
  { user_query := "q"
    tasks := [{ id := "1", description := "d", status := "pending" }]
    created_at := "t0" }

/-- Claim C10 witness updates: a valid completion of task 1, then an
unknown id 2. -/
def c10us : List TaskUpdate := [{ id := "1", status := "completed", notes := some "done" }]

/-- Claim C10 witness bad update. -/
def c10bad : TaskUpdate := { id := "2", status := "pending" }

/-- Claim C5 witness host. -/
def c5host : Host := { cwd := "/w" }

/-- Claim C5 witness agent state: standing approval active, a file
`/w/g.txt` with content `abc`, nothing read yet. -/
def c5st : AgentState :=
  { messages := [], sessionAutoApprove := true
    tools := { fs := [("/w", FSNode.dir), ("/w/g.txt", FSNode.file "abc")]
               readSet := [], taskList := none } }

/-- Claim C5 witness edit arguments for the never-read part. -/
def c5d : ArgsDict := { file_path := some "g.txt", old_text := some "b", new_text := some "z" }

/-- One operation of the agent's public API, as driven by the CLI:
a whole `chat(userInput)` turn (with its backend script), an
`interrupt()`, or a `clearHistory()`. -/
inductive AgentOp where
  | chatStep (host : Host) (userInput : String) (script : List BackendResponse)
  | interruptStep
  | clearStep

/-- Apply one operation to the agent state. -/
def applyOp (st : AgentState) : AgentOp → AgentState
  | .chatStep host input script => (chat host st input script).state
  | .interruptStep => interruptOp st
  | .clearStep => clearHistoryOp st

/-- Run a sequence of operations from a state: the reachable states are
exactly the values of `runOps init ops`. -/
def runOps (st : AgentState) (ops : List AgentOp) : AgentState :=
  ops.foldl applyOp st

/-- Claim C3 fixture: a session whose start-of-session prefix is one
system message. -/
def c3init : AgentState :=
  { messages := [{ role := Role.system, content := "base" }]
    tools := { fs := [], readSet := [], taskList := none } }

/-- Helper: one tool call never touches the conversation, the interruption
flag or the client flag, can only turn the session-approval flag on, and
never issues a backend request. -/
theorem executeToolCall_state_shape (host : Host) (st : AgentState) (tc : ToolCallRequest) :
    (executeToolCall host st tc).2.1.messages = st.messages ∧
    (executeToolCall host st tc).2.1.isInterrupted = st.isInterrupted ∧
    (executeToolCall host st tc).2.1.hasClient = st.hasClient ∧
    (st.sessionAutoApprove = true → (executeToolCall host st tc).2.1.sessionAutoApprove = true) ∧
    Event.backendRequested ∉ (executeToolCall host st tc).2.2 := by
  unfold executeToolCall execApproved
  rcases tc with ⟨id, n, args⟩
  rcases args with _ | d
  · simp
  · dsimp only
    repeat' split
    all_goals simp

/-- Helper: when the gate condition of a tool call is satisfied (dangerous,
or approval-required without active standing approval), a registered
approval callback is consulted. -/
theorem executeToolCall_gated (host : Host) (st : AgentState) (id n : String)
    (d : ArgsDict) (f : String → ArgsDict → ApprovalResponse)
    (hval : editValidationFails host st (stripToolName n) d = false)
    (hgate : ((DANGEROUS_TOOLS.contains (stripToolName n) ||
        APPROVAL_REQUIRED_TOOLS.contains (stripToolName n)) &&
      !(APPROVAL_REQUIRED_TOOLS.contains (stripToolName n) &&
        !DANGEROUS_TOOLS.contains (stripToolName n) && st.sessionAutoApprove)) = true)
    (happ : host.onToolApproval = some f)
    (hint : st.isInterrupted = false) :
    Event.approvalAsked (stripToolName n) ∈
      (executeToolCall host st ⟨id, n, some d⟩).2.2 := by
  unfold executeToolCall
  dsimp only
  rw [hval, hgate, happ]
  simp only [Bool.false_eq_true, if_false, if_true, hint]
  split <;> simp [execApproved]

/-- Helper: when the gate condition of a tool call fails (safe tool, or
approval-required with standing approval active), the call goes straight to
execution: the approval callback is not consulted and the executor runs. -/
theorem executeToolCall_ungated (host : Host) (st : AgentState) (id n : String)
    (d : ArgsDict)
    (hval : editValidationFails host st (stripToolName n) d = false)
    (hgate : ((DANGEROUS_TOOLS.contains (stripToolName n) ||
        APPROVAL_REQUIRED_TOOLS.contains (stripToolName n)) &&
      !(APPROVAL_REQUIRED_TOOLS.contains (stripToolName n) &&
        !DANGEROUS_TOOLS.contains (stripToolName n) && st.sessionAutoApprove)) = false) :
    executeToolCall host st ⟨id, n, some d⟩ =
      execApproved host st (stripToolName n) d [Event.toolStarted (stripToolName n)] := by
  unfold executeToolCall
  dsimp only
  rw [hval, hgate]
  simp

/-- Helper: adding a path to the read tracker puts it in the tracker. -/
theorem rsAdd_mem (rs : List String) (p : String) : p ∈ rsAdd rs p := by
  unfold rsAdd
  split
  · next hc => simpa using hc
  · simp

/-- Helper: adding a path to the read tracker makes `contains` true for it. -/
theorem rsAdd_contains (rs : List String) (p : String) :
    (rsAdd rs p).contains p = true := by
  simpa using rsAdd_mem rs p

/-- Helper: a successful read — full or ranged — records the resolved path
in the read tracker. -/
theorem readFile_success_readSet (cwd : String) (fs : FS) (rs : List String)
    (fp : String) (sl el : Option Nat)
    (h : (readFile cwd fs rs fp sl el).1.success = true) :
    ((readFile cwd fs rs fp sl el).2).contains (resolvePath cwd fp) = true := by
  simp only [readFile] at h ⊢
  split at h
  · simp [createToolResponse] at h
  · simp [createToolResponse] at h
  · rename_i content heq
    split at h
    · simp [createToolResponse] at h
    · rename_i hsize
      rw [if_neg hsize]
      cases sl with
      | none => exact rsAdd_contains rs (resolvePath cwd fp)
      | some s =>
        dsimp only at h ⊢
        split at h
        · simp [createToolResponse] at h
        · rename_i hexceed
          rw [if_neg hexceed]
          exact rsAdd_contains rs (resolvePath cwd fp)

/-- C1: the spec says deleting a path that resolves outside the working
directory always fails and never touches the filesystem.  The source tests
containment with a raw string prefix, so a sibling directory sharing the cwd
as a string prefix slips through: with cwd `/a/b`, deleting `../bc/x.txt`
resolves to `/a/bc/x.txt`, which is outside the working directory, yet the
call succeeds and removes the file. -/
theorem c1_delete_escapes_cwd :
    pathContained c1cwd (resolvePath c1cwd "../bc/x.txt") = false ∧
    (deleteFile c1cwd c1fs "../bc/x.txt" false).1.success = true ∧
    (deleteFile c1cwd c1fs "../bc/x.txt" false).2 = [("/a/b", FSNode.dir)] := by
  refine ⟨by decide, by decide, by decide⟩

/-- C2: the spec says an `edit_file` with `replaceAll=false` whose
`old_text` occurs twice fails with an ambiguous-match error and leaves the
file unchanged.  The control loop's tool-call path only runs the
read-before-edit check; the standalone `EditFileValidator` that holds the
ambiguity check is never invoked (`validateToolArgs` has no caller), and the
executor replaces the first occurrence.  On a file containing `xx`, editing
`x`→`y` succeeds and rewrites the file to `yx`, even though the validation
system — had it been wired in — rejects exactly this call. -/
theorem c2_ambiguous_edit_not_rejected :
    countOccurrences "xx" "x" = 2 ∧
    (executeToolCall c2host c2st c2tc).1.success = true ∧
    FS.find (executeToolCall c2host c2st c2tc).2.1.tools.fs (resolvePath "/w" "f.txt") =
      some (FSNode.file "yx") ∧
    (editFileValidatorCheck "/w" c2st.tools.fs c2st.tools.readSet c2args).isValid = false := by
  refine ⟨by decide, by decide, by decide, by decide⟩

/-- C9: when the approval callback answers an approval-required,
non-dangerous tool with `approved: false` and `autoApproveSession: true`,
the loop flips the session standing-approval flag before checking
`approved`, so the flag becomes true even though the current call returns
the `userRejected` cancellation result. -/
theorem c9_rejection_still_grants_session_approval
    (host : Host) (st : AgentState) (tc : ToolCallRequest) (d : ArgsDict)
    (f : String → ArgsDict → ApprovalResponse)
    (hargs : tc.args = some d)
    (hreq : APPROVAL_REQUIRED_TOOLS.contains (stripToolName tc.name) = true)
    (hdang : DANGEROUS_TOOLS.contains (stripToolName tc.name) = false)
    (hval : editValidationFails host st (stripToolName tc.name) d = false)
    (hsess : st.sessionAutoApprove = false)
    (hint : st.isInterrupted = false)
    (happ : host.onToolApproval = some f)
    (hf : f (stripToolName tc.name) d = { approved := false, autoApproveSession := true }) :
    (executeToolCall host st tc).1 = canceledResult ∧
    (executeToolCall host st tc).2.1.sessionAutoApprove = true := by
  have hreq' : stripToolName tc.name ∈ APPROVAL_REQUIRED_TOOLS := by simpa using hreq
  have hdang' : stripToolName tc.name ∉ DANGEROUS_TOOLS := by simpa using hdang
  unfold executeToolCall
  rw [hargs]
  simp [hval, hreq', hdang', hsess, hint, happ, hf]

/-- Witness for C9: the general theorem applied at the concrete call. -/
theorem c9_witness :
    (executeToolCall c9host c9st c9tc).1 = canceledResult ∧
    (executeToolCall c9host c9st c9tc).2.1.sessionAutoApprove = true :=
  c9_rejection_still_grants_session_approval c9host c9st c9tc _ _ rfl (by decide)
    (by decide) (by decide) rfl rfl rfl rfl

/-- C5: read-before-edit through the control loop.  First part — an
`edit_file` call whose path was never recorded in the read tracker is turned
away by the validator: a failure result carrying the read-before-edit error,
no state change, and the executor never runs.  Second part — after a
successful `read_file` of the same path (full or any line range), the
resolved path is in the read tracker, and a subsequent `edit_file` whose
`old_text` occurs exactly once succeeds (standing approval active so the
gate passes). -/
theorem c5_read_before_edit (host : Host) (st : AgentState) :
    (∀ (id p : String) (d : ArgsDict),
      d.file_path = some p → ¬ p = "" →
      validateReadBeforeEdit host.cwd st.tools.readSet p = false →
      (executeToolCall host st ⟨id, "edit_file", some d⟩).1.success = false ∧
      (executeToolCall host st ⟨id, "edit_file", some d⟩).1.error =
        some (getReadBeforeEditError p) ∧
      (executeToolCall host st ⟨id, "edit_file", some d⟩).2.1 = st ∧
      Event.toolExecuted "edit_file" ∉ (executeToolCall host st ⟨id, "edit_file", some d⟩).2.2) ∧
    (∀ (id1 id2 fp content oldText newText : String) (sl el : Option Nat),
      st.sessionAutoApprove = true → st.isInterrupted = false →
      FS.find st.tools.fs (resolvePath host.cwd fp) = some (FSNode.file content) →
      (readFile host.cwd st.tools.fs st.tools.readSet fp sl el).1.success = true →
      countOccurrences content oldText = 1 →
      validateReadBeforeEdit host.cwd
        ((executeToolCall host st ⟨id1, "read_file",
          some { file_path := some fp, start_line := sl, end_line := el }⟩).2.1).tools.readSet
        fp = true ∧
      (executeToolCall host
        (executeToolCall host st ⟨id1, "read_file",
          some { file_path := some fp, start_line := sl, end_line := el }⟩).2.1
        ⟨id2, "edit_file",
          some { file_path := some fp, old_text := some oldText,
                 new_text := some newText }⟩).1.success = true) := by
  constructor
  · intro id p d hfp hp hval
    have hguard : editValidationFails host st (stripToolName "edit_file") d = true := by
      simp [editValidationFails, stripToolName, truthyStr, hfp, hp, hval,
        strStartsWith, charsPrefix]
    unfold executeToolCall
    dsimp only
    rw [hguard]
    simp [hfp]
  · intro id1 id2 fp content oldText newText sl el hsess hint hfind hread hcount
    have hungated := executeToolCall_ungated host st id1 "read_file"
      { file_path := some fp, start_line := sl, end_line := el } rfl rfl
    have hrs : ((executeToolCall host st ⟨id1, "read_file",
        some { file_path := some fp, start_line := sl, end_line := el }⟩).2.1).tools.readSet =
        (readFile host.cwd st.tools.fs st.tools.readSet fp sl el).2 := by
      rw [hungated]
      rfl
    have hfs : ((executeToolCall host st ⟨id1, "read_file",
        some { file_path := some fp, start_line := sl, end_line := el }⟩).2.1).tools.fs =
        st.tools.fs := by
      rw [hungated]
      rfl
    have hval1 : validateReadBeforeEdit host.cwd
        ((executeToolCall host st ⟨id1, "read_file",
          some { file_path := some fp, start_line := sl, end_line := el }⟩).2.1).tools.readSet
        fp = true := by
      unfold validateReadBeforeEdit
      rw [hrs]
      exact readFile_success_readSet host.cwd st.tools.fs st.tools.readSet fp sl el hread
    refine ⟨hval1, ?_⟩
    set st1 := (executeToolCall host st ⟨id1, "read_file",
      some { file_path := some fp, start_line := sl, end_line := el }⟩).2.1 with hst1
    have hsess1 : st1.sessionAutoApprove = true := by
      rw [hst1, hungated]
      exact hsess
    have hvalEdit : editValidationFails host st1 (stripToolName "edit_file")
        { file_path := some fp, old_text := some oldText, new_text := some newText } = false := by
      simp [editValidationFails, stripToolName, truthyStr, strStartsWith, charsPrefix,
        hval1]
    have hgateEdit : ((DANGEROUS_TOOLS.contains (stripToolName "edit_file") ||
        APPROVAL_REQUIRED_TOOLS.contains (stripToolName "edit_file")) &&
      !(APPROVAL_REQUIRED_TOOLS.contains (stripToolName "edit_file") &&
        !DANGEROUS_TOOLS.contains (stripToolName "edit_file") &&
        st1.sessionAutoApprove)) = false := by
      rw [show ((DANGEROUS_TOOLS.contains (stripToolName "edit_file") ||
          APPROVAL_REQUIRED_TOOLS.contains (stripToolName "edit_file")) &&
        !(APPROVAL_REQUIRED_TOOLS.contains (stripToolName "edit_file") &&
          !DANGEROUS_TOOLS.contains (stripToolName "edit_file") &&
          st1.sessionAutoApprove)) = !st1.sessionAutoApprove from rfl, hsess1]
      rfl
    rw [executeToolCall_ungated host st1 id2 "edit_file"
      { file_path := some fp, old_text := some oldText, new_text := some newText }
      hvalEdit hgateEdit]
    show (editFile host.cwd st1.tools.fs fp oldText newText false).1.success = true
    simp only [editFile]
    rw [show st1.tools.fs = st.tools.fs from hfs, hfind]
    dsimp only
    unfold FS.write
    rw [hfind]
    simp [createToolResponse]

/-- C4: safety classing of the approval gate under active session standing
approval.  First part — the dangerous tools `delete_file` and
`execute_command` always consult the registered approval callback (for any
value of the session flag, in particular when it is true).  Second part —
the approval-required tools `create_file` and `edit_file` run without
consulting the callback once standing approval is active (for `edit_file`,
provided the read-before-edit guard passes).  Third part — the safe tools
never consult the callback, whatever the session flag. -/
theorem c4_safety_classing (host : Host) (st : AgentState) (d : ArgsDict)
    (f : String → ArgsDict → ApprovalResponse) (id : String) :
    (∀ n, n ∈ DANGEROUS_TOOLS →
      host.onToolApproval = some f → st.isInterrupted = false →
      Event.approvalAsked n ∈ (executeToolCall host st ⟨id, n, some d⟩).2.2) ∧
    (∀ n, n ∈ APPROVAL_REQUIRED_TOOLS → st.sessionAutoApprove = true →
      editValidationFails host st n d = false →
      Event.approvalAsked n ∉ (executeToolCall host st ⟨id, n, some d⟩).2.2 ∧
      Event.toolExecuted n ∈ (executeToolCall host st ⟨id, n, some d⟩).2.2) ∧
    (∀ n, n ∈ SAFE_TOOLS →
      Event.approvalAsked n ∉ (executeToolCall host st ⟨id, n, some d⟩).2.2 ∧
      Event.toolExecuted n ∈ (executeToolCall host st ⟨id, n, some d⟩).2.2) := by
  have hev : ∀ (n : String) (hval : editValidationFails host st (stripToolName n) d = false)
      (hgate : ((DANGEROUS_TOOLS.contains (stripToolName n) ||
          APPROVAL_REQUIRED_TOOLS.contains (stripToolName n)) &&
        !(APPROVAL_REQUIRED_TOOLS.contains (stripToolName n) &&
          !DANGEROUS_TOOLS.contains (stripToolName n) && st.sessionAutoApprove)) = false),
      (executeToolCall host st ⟨id, n, some d⟩).2.2 =
        [Event.toolStarted (stripToolName n), Event.toolExecuted (stripToolName n),
         Event.toolEnded (stripToolName n)] := by
    intro n hval hgate
    rw [executeToolCall_ungated host st id n d hval hgate]
    rfl
  refine ⟨?_, ?_, ?_⟩
  · intro n hn happ hint
    fin_cases hn
    · exact executeToolCall_gated host st id "delete_file" d f rfl rfl happ hint
    · exact executeToolCall_gated host st id "execute_command" d f rfl rfl happ hint
  · intro n hn hsess hval
    fin_cases hn
    · rw [hev "create_file" hval (by rw [show ((DANGEROUS_TOOLS.contains (stripToolName "create_file") ||
            APPROVAL_REQUIRED_TOOLS.contains (stripToolName "create_file")) &&
          !(APPROVAL_REQUIRED_TOOLS.contains (stripToolName "create_file") &&
            !DANGEROUS_TOOLS.contains (stripToolName "create_file") &&
            st.sessionAutoApprove)) = !st.sessionAutoApprove from rfl, hsess]; rfl),
        show stripToolName "create_file" = "create_file" from rfl]
      simp
    · rw [hev "edit_file" hval (by rw [show ((DANGEROUS_TOOLS.contains (stripToolName "edit_file") ||
            APPROVAL_REQUIRED_TOOLS.contains (stripToolName "edit_file")) &&
          !(APPROVAL_REQUIRED_TOOLS.contains (stripToolName "edit_file") &&
            !DANGEROUS_TOOLS.contains (stripToolName "edit_file") &&
            st.sessionAutoApprove)) = !st.sessionAutoApprove from rfl, hsess]; rfl),
        show stripToolName "edit_file" = "edit_file" from rfl]
      simp
  · intro n hn
    fin_cases hn
    · rw [hev "read_file" rfl rfl, show stripToolName "read_file" = "read_file" from rfl]
      simp
    · rw [hev "list_files" rfl rfl, show stripToolName "list_files" = "list_files" from rfl]
      simp
    · rw [hev "search_files" rfl rfl,
        show stripToolName "search_files" = "search_files" from rfl]
      simp
    · rw [hev "create_tasks" rfl rfl,
        show stripToolName "create_tasks" = "create_tasks" from rfl]
      simp
    · rw [hev "update_tasks" rfl rfl,
        show stripToolName "update_tasks" = "update_tasks" from rfl]
      simp

/-- Witness for C4: the general theorem applied at a dangerous, an
approval-required and a safe tool call. -/
theorem c4_witness :
    Event.approvalAsked "delete_file" ∈
      (executeToolCall c4host c4st ⟨"i", "delete_file", some {}⟩).2.2 ∧
    (Event.approvalAsked "create_file" ∉
        (executeToolCall c4host c4st ⟨"i", "create_file", some {}⟩).2.2 ∧
      Event.toolExecuted "create_file" ∈
        (executeToolCall c4host c4st ⟨"i", "create_file", some {}⟩).2.2) ∧
    (Event.approvalAsked "read_file" ∉
        (executeToolCall c4host c4st ⟨"i", "read_file", some {}⟩).2.2 ∧
      Event.toolExecuted "read_file" ∈
        (executeToolCall c4host c4st ⟨"i", "read_file", some {}⟩).2.2) :=
  ⟨(c4_safety_classing c4host c4st {} (fun _ _ => { approved := true }) "i").1
      "delete_file" (by decide) rfl rfl,
   (c4_safety_classing c4host c4st {} (fun _ _ => { approved := true }) "i").2.1
      "create_file" (by decide) rfl (by decide),
   (c4_safety_classing c4host c4st {} (fun _ _ => { approved := true }) "i").2.2
      "read_file" (by decide)⟩

/-- Helper: applying one update never changes the task ids. -/
theorem updateTaskIn_ids (now : String) (tasks : List Task) (u : TaskUpdate)
    (tasks' : List Task) (h : updateTaskIn now tasks u = some tasks') :
    tasks'.map (fun t => t.id) = tasks.map (fun t => t.id) := by
  induction tasks generalizing tasks' with
  | nil => simp [updateTaskIn] at h
  | cons t ts ih =>
    unfold updateTaskIn at h
    split at h
    · rename_i hid
      cases h
      simp [hid]
    · rcases hrec : updateTaskIn now ts u with _ | ts'
      · rw [hrec] at h
        simp at h
      · rw [hrec] at h
        simp at h
        subst h
        simp [ih ts' hrec]

/-- Helper: an update whose id names an existing task finds it. -/
theorem updateTaskIn_found (now : String) (tasks : List Task) (u : TaskUpdate)
    (h : u.id ∈ tasks.map (fun t => t.id)) :
    (updateTaskIn now tasks u).isSome = true := by
  induction tasks with
  | nil => simp at h
  | cons t ts ih =>
    unfold updateTaskIn
    split
    · simp
    · rename_i hid
      simp at h
      rcases h with h | h
      · exact absurd h.symm hid
      · have hts := ih (by simpa using h)
        rcases hopt : updateTaskIn now ts u with _ | ts'
        · rw [hopt] at hts
          simp at hts
        · simp [hopt]

/-- Helper: an update whose id names no task returns none. -/
theorem updateTaskIn_not_found (now : String) (tasks : List Task) (u : TaskUpdate)
    (h : ¬ u.id ∈ tasks.map (fun t => t.id)) :
    updateTaskIn now tasks u = none := by
  induction tasks with
  | nil => rfl
  | cons t ts ih =>
    simp at h
    unfold updateTaskIn
    split
    · rename_i hid
      exact absurd hid.symm h.1
    · rw [ih (by simpa using h.2)]
      rfl

/-- Helper: the sequential update loop applied to a batch of valid, found
updates followed by one unknown id fails at the unknown id with the earlier
updates already applied. -/
theorem updateTasksLoop_append_bad (now : String) (us : List TaskUpdate)
    (tasks : List Task) (bad : TaskUpdate)
    (hus : ∀ u ∈ us, ¬ u.id = "" ∧ ¬ u.status = "" ∧ validStatus u.status = true ∧
      u.id ∈ tasks.map (fun t => t.id))
    (hbadv : ¬ bad.id = "" ∧ ¬ bad.status = "" ∧ validStatus bad.status = true)
    (hbad : ¬ bad.id ∈ tasks.map (fun t => t.id)) :
    updateTasksLoop now tasks (us ++ [bad]) =
      (some ("Error: Task '" ++ bad.id ++ "' not found"), applyUpdatesSeq now tasks us) := by
  induction us generalizing tasks with
  | nil =>
    rw [List.nil_append]
    unfold updateTasksLoop
    rw [if_neg (by simp [hbadv.1, hbadv.2.1]), if_neg (by simp [hbadv.2.2]),
      updateTaskIn_not_found now tasks bad hbad]
    rfl
  | cons u us ih =>
    have hu := hus u (by simp)
    have hfound := updateTaskIn_found now tasks u hu.2.2.2
    rcases hopt : updateTaskIn now tasks u with _ | tasks'
    · rw [hopt] at hfound
      simp at hfound
    · have hids := updateTaskIn_ids now tasks u tasks' hopt
      have happly : applyUpdatesSeq now tasks (u :: us) = applyUpdatesSeq now tasks' us := by
        simp only [applyUpdatesSeq]
        rw [hopt]
      show updateTasksLoop now tasks (u :: (us ++ [bad])) = _
      unfold updateTasksLoop
      rw [if_neg (by simp [hu.1, hu.2.1]), if_neg (by simp [hu.2.2.1]), hopt]
      dsimp only
      rw [ih tasks'
        (fun v hv => ⟨(hus v (by simp [hv])).1, (hus v (by simp [hv])).2.1,
          (hus v (by simp [hv])).2.2.1, by rw [hids]; exact (hus v (by simp [hv])).2.2.2⟩)
        (by rw [hids]; exact hbad), happly]

/-- C10: `update_tasks` applies its batch sequentially and is not atomic on
error — a batch of valid updates followed by one referencing an unknown id
returns a failure result while the earlier updates (status, notes and
`updated_at` stamps) remain applied to the global task list. -/
theorem c10_update_tasks_not_atomic (now : String) (tl : TaskListState)
    (us : List TaskUpdate) (bad : TaskUpdate)
    (hus : ∀ u ∈ us, ¬ u.id = "" ∧ ¬ u.status = "" ∧ validStatus u.status = true ∧
      u.id ∈ tl.tasks.map (fun t => t.id))
    (hbadv : ¬ bad.id = "" ∧ ¬ bad.status = "" ∧ validStatus bad.status = true)
    (hbad : ¬ bad.id ∈ tl.tasks.map (fun t => t.id)) :
    updateTasks now (some tl) (us ++ [bad]) =
      (createToolResponse false none "" ("Error: Task '" ++ bad.id ++ "' not found"),
       some { tl with tasks := applyUpdatesSeq now tl.tasks us }) := by
  unfold updateTasks
  dsimp only
  rw [updateTasksLoop_append_bad now us tl.tasks bad hus hbadv hbad]

/-- C7: tool-call/result pairing.  A batch of N tool-call requests the loop
processes to completion (no interruption, no rejection) appends exactly N
tool-role messages, in request order, the i-th being the serialized result
of the i-th request with `tool_call_id` equal to that request's id. -/
theorem c7_tool_result_pairing (host : Host) :
    ∀ (tcs : List ToolCallRequest) (st : AgentState),
      st.isInterrupted = false →
      (runToolCalls host st tcs).2.2 = BatchStop.completed →
      ∃ results : List ToolResult,
        results.length = tcs.length ∧
        (runToolCalls host st tcs).1.messages =
          st.messages ++ (tcs.zip results).map (fun p => toolMessage p.1 p.2) ∧
        ((runToolCalls host st tcs).1.messages.drop st.messages.length).map
          (fun m => m.tool_call_id) = tcs.map (fun tc => some tc.id) := by
  intro tcs
  induction tcs with
  | nil =>
    intro st hint hdone
    exact ⟨[], by simp [runToolCalls]⟩
  | cons tc rest ih =>
    intro st hint hdone
    have hsh := executeToolCall_state_shape host st tc
    unfold runToolCalls at hdone ⊢
    rw [if_neg (by simp [hint])] at hdone ⊢
    dsimp only at hdone ⊢
    by_cases hrej : (executeToolCall host st tc).1.userRejected = true
    · rw [if_pos hrej] at hdone
      simp at hdone
    · rw [if_neg hrej] at hdone ⊢
      dsimp only at hdone ⊢
      obtain ⟨results, hlen, hmsgs, _⟩ := ih
        { messages := (executeToolCall host st tc).2.1.messages ++
            [toolMessage tc (executeToolCall host st tc).1]
          sessionAutoApprove := (executeToolCall host st tc).2.1.sessionAutoApprove
          isInterrupted := (executeToolCall host st tc).2.1.isInterrupted
          hasClient := (executeToolCall host st tc).2.1.hasClient
          tools := (executeToolCall host st tc).2.1.tools }
        (by simpa using hsh.2.1.trans hint) hdone
      dsimp only at hmsgs
      refine ⟨(executeToolCall host st tc).1 :: results, by simp [hlen], ?_, ?_⟩
      · rw [hmsgs]
        simp [hsh.1]
      · rw [hmsgs, hsh.1, List.append_assoc, List.drop_left]
        simp only [List.zip_cons_cons, List.map_cons, List.singleton_append]
        rw [show (toolMessage tc (executeToolCall host st tc).1).tool_call_id =
          some tc.id from rfl]
        congr 1
        calc ((rest.zip results).map (fun p => toolMessage p.1 p.2)).map
              (fun m => m.tool_call_id)
            = ((rest.zip results).map Prod.fst).map (fun t => some t.id) := by
              simp only [List.map_map]
              rfl
          _ = rest.map (fun t => some t.id) := by
              rw [List.map_fst_zip rest results (by omega)]

/-- Witness for C7: the pairing theorem applied at a concrete two-call
batch. -/
theorem c7_witness :
    ∃ results : List ToolResult,
      results.length = c7tcs.length ∧
      (runToolCalls c7host c7st c7tcs).1.messages =
        c7st.messages ++ (c7tcs.zip results).map (fun p => toolMessage p.1 p.2) ∧
      ((runToolCalls c7host c7st c7tcs).1.messages.drop c7st.messages.length).map
        (fun m => m.tool_call_id) = c7tcs.map (fun tc => some tc.id) :=
  c7_tool_result_pairing c7host c7tcs c7st rfl (by decide)

/-- Helper: a batch run leaves the interruption flag unchanged. -/
theorem runToolCalls_interrupt (host : Host) :
    ∀ (tcs : List ToolCallRequest) (st : AgentState),
      (runToolCalls host st tcs).1.isInterrupted = st.isInterrupted := by
  intro tcs
  induction tcs with
  | nil => intro st; rfl
  | cons tc rest ih =>
    intro st
    unfold runToolCalls
    split
    · rfl
    · dsimp only
      split
      · exact (executeToolCall_state_shape host st tc).2.1
      · exact (ih _).trans (executeToolCall_state_shape host st tc).2.1

/-- Helper: a batch run issues no backend request. -/
theorem runToolCalls_no_backend (host : Host) :
    ∀ (tcs : List ToolCallRequest) (st : AgentState),
      Event.backendRequested ∉ (runToolCalls host st tcs).2.1 := by
  intro tcs
  induction tcs with
  | nil => intro st; simp [runToolCalls]
  | cons tc rest ih =>
    intro st
    unfold runToolCalls
    split
    · simp
    · dsimp only
      split
      · exact (executeToolCall_state_shape host st tc).2.2.2.2
      · simp only [List.mem_append]
        push_neg
        exact ⟨fun h => (executeToolCall_state_shape host st tc).2.2.2.2 h, fun h => ih _ h⟩

/-- Helper: the defining equation of `runToolCalls` on a non-empty batch. -/
theorem runToolCalls_cons (host : Host) (st : AgentState) (tc : ToolCallRequest)
    (rest : List ToolCallRequest) :
    runToolCalls host st (tc :: rest) =
      (if st.isInterrupted then (st, ([] : List Event), BatchStop.interrupted)
       else
        let r := executeToolCall host st tc
        let st2 : AgentState := { r.2.1 with
          messages := r.2.1.messages ++ [toolMessage tc r.1] }
        if r.1.userRejected then
          ({ st2 with messages := st2.messages ++ [rejectionNote tc] }, r.2.2,
            BatchStop.rejected)
        else
          let q := runToolCalls host st2 rest
          (q.1, r.2.2 ++ q.2.1, q.2.2)) := rfl

/-- Helper: a batch that completes composes with a following batch. -/
theorem runToolCalls_append_completed (host : Host) :
    ∀ (pre tcs : List ToolCallRequest) (st : AgentState),
      (runToolCalls host st pre).2.2 = BatchStop.completed →
      runToolCalls host st (pre ++ tcs) =
        ((runToolCalls host (runToolCalls host st pre).1 tcs).1,
         (runToolCalls host st pre).2.1 ++
           (runToolCalls host (runToolCalls host st pre).1 tcs).2.1,
         (runToolCalls host (runToolCalls host st pre).1 tcs).2.2) := by
  intro pre
  induction pre with
  | nil =>
    intro tcs st _
    simp [runToolCalls]
  | cons tc rest ih =>
    intro tcs st hdone
    rw [runToolCalls_cons] at hdone
    rw [List.cons_append, runToolCalls_cons, runToolCalls_cons]
    by_cases hni : st.isInterrupted = true
    · rw [if_pos hni] at hdone
      simp at hdone
    · rw [if_neg hni] at hdone ⊢
      dsimp only at hdone ⊢
      by_cases hrej : (executeToolCall host st tc).1.userRejected = true
      · rw [if_pos hrej] at hdone
        simp at hdone
      · rw [if_neg hrej] at hdone ⊢
        dsimp only at hdone ⊢
        rw [ih tcs _ hdone]
        rw [if_neg hni]
        dsimp only
        rw [if_neg hrej]
        dsimp only
        simp [List.append_assoc]

/-- C6: rejection short-circuit.  When the user rejects tool call k+1 of a
batch whose first k calls completed, the loop appends the rejection
tool-role message and exactly one system-role note after the state reached
by the first k calls, never executes the later calls (the events are exactly
those of the first k+1 calls), and returns done with the rest of the script
unconsumed — exactly one backend request was issued that turn. -/
theorem c6_rejection_short_circuit (host : Host) (st st1 : AgentState)
    (content : String) (pre post : List ToolCallRequest) (tk : ToolCallRequest)
    (rest : List BackendResponse) (iteration : Nat)
    (hiter : iteration < 50) (hint : st.isInterrupted = false)
    (hst1 : st1 = { st with messages := st.messages ++
      [{ role := Role.assistant, content := content,
         tool_calls := some (pre ++ tk :: post) }] })
    (hpre : (runToolCalls host st1 pre).2.2 = BatchStop.completed)
    (hrej : (executeToolCall host (runToolCalls host st1 pre).1 tk).1.userRejected = true) :
    (chatLoop host st (BackendResponse.reply content none (some (pre ++ tk :: post)) :: rest)
        iteration).outcome = ChatOutcome.done ∧
    (chatLoop host st (BackendResponse.reply content none (some (pre ++ tk :: post)) :: rest)
        iteration).restScript = rest ∧
    (chatLoop host st (BackendResponse.reply content none (some (pre ++ tk :: post)) :: rest)
        iteration).state.messages =
      (runToolCalls host st1 pre).1.messages ++
        [toolMessage tk (executeToolCall host (runToolCalls host st1 pre).1 tk).1,
         rejectionNote tk] ∧
    (chatLoop host st (BackendResponse.reply content none (some (pre ++ tk :: post)) :: rest)
        iteration).events =
      Event.backendRequested :: ((runToolCalls host st1 pre).2.1 ++
        (executeToolCall host (runToolCalls host st1 pre).1 tk).2.2) ∧
    (chatLoop host st (BackendResponse.reply content none (some (pre ++ tk :: post)) :: rest)
        iteration).events.count Event.backendRequested = 1 := by
  have hintK : (runToolCalls host st1 pre).1.isInterrupted = false := by
    rw [runToolCalls_interrupt host pre st1, hst1]
    exact hint
  have hshK := executeToolCall_state_shape host (runToolCalls host st1 pre).1 tk
  have hstep : runToolCalls host (runToolCalls host st1 pre).1 (tk :: post) =
      ({ messages := (runToolCalls host st1 pre).1.messages ++
          [toolMessage tk (executeToolCall host (runToolCalls host st1 pre).1 tk).1,
           rejectionNote tk]
         sessionAutoApprove :=
           (executeToolCall host (runToolCalls host st1 pre).1 tk).2.1.sessionAutoApprove
         isInterrupted :=
           (executeToolCall host (runToolCalls host st1 pre).1 tk).2.1.isInterrupted
         hasClient :=
           (executeToolCall host (runToolCalls host st1 pre).1 tk).2.1.hasClient
         tools := (executeToolCall host (runToolCalls host st1 pre).1 tk).2.1.tools },
       (executeToolCall host (runToolCalls host st1 pre).1 tk).2.2,
       BatchStop.rejected) := by
    rw [runToolCalls_cons]
    rw [if_neg (by simp [hintK])]
    dsimp only
    rw [if_pos hrej]
    simp [hshK.1]
  have hrun : runToolCalls host st1 (pre ++ tk :: post) =
      ({ messages := (runToolCalls host st1 pre).1.messages ++
          [toolMessage tk (executeToolCall host (runToolCalls host st1 pre).1 tk).1,
           rejectionNote tk]
         sessionAutoApprove :=
           (executeToolCall host (runToolCalls host st1 pre).1 tk).2.1.sessionAutoApprove
         isInterrupted :=
           (executeToolCall host (runToolCalls host st1 pre).1 tk).2.1.isInterrupted
         hasClient :=
           (executeToolCall host (runToolCalls host st1 pre).1 tk).2.1.hasClient
         tools := (executeToolCall host (runToolCalls host st1 pre).1 tk).2.1.tools },
       (runToolCalls host st1 pre).2.1 ++
         (executeToolCall host (runToolCalls host st1 pre).1 tk).2.2,
       BatchStop.rejected) := by
    rw [runToolCalls_append_completed host pre (tk :: post) st1 hpre, hstep]
  have hloop : chatLoop host st
      (BackendResponse.reply content none (some (pre ++ tk :: post)) :: rest) iteration =
      ⟨ChatOutcome.done,
       { messages := (runToolCalls host st1 pre).1.messages ++
          [toolMessage tk (executeToolCall host (runToolCalls host st1 pre).1 tk).1,
           rejectionNote tk]
         sessionAutoApprove :=
           (executeToolCall host (runToolCalls host st1 pre).1 tk).2.1.sessionAutoApprove
         isInterrupted :=
           (executeToolCall host (runToolCalls host st1 pre).1 tk).2.1.isInterrupted
         hasClient :=
           (executeToolCall host (runToolCalls host st1 pre).1 tk).2.1.hasClient
         tools := (executeToolCall host (runToolCalls host st1 pre).1 tk).2.1.tools },
       Event.backendRequested :: ((runToolCalls host st1 pre).2.1 ++
         (executeToolCall host (runToolCalls host st1 pre).1 tk).2.2),
       rest⟩ := by
    rw [chatLoop]
    rw [if_neg (by omega), if_neg (by simp [hint])]
    dsimp only
    rw [← hst1, hrun]
  refine ⟨by rw [hloop], by rw [hloop], by rw [hloop], by rw [hloop], ?_⟩
  rw [hloop]
  have h1 : Event.backendRequested ∉ (runToolCalls host st1 pre).2.1 :=
    runToolCalls_no_backend host pre st1
  have h2 : Event.backendRequested ∉
      (executeToolCall host (runToolCalls host st1 pre).1 tk).2.2 :=
    hshK.2.2.2.2
  simp [List.count_cons, List.count_append, List.count_eq_zero.mpr h1,
    List.count_eq_zero.mpr h2]

/-- Witness for C6: the short-circuit theorem applied at a concrete
three-call batch whose second call is rejected. -/
theorem c6_witness :
    (chatLoop c6host c6st
      (BackendResponse.reply "thinking" none (some (c6pre ++ c6tk :: c6post)) :: c6rest)
      0).outcome = ChatOutcome.done ∧
    (chatLoop c6host c6st
      (BackendResponse.reply "thinking" none (some (c6pre ++ c6tk :: c6post)) :: c6rest)
      0).restScript = c6rest ∧
    (chatLoop c6host c6st
      (BackendResponse.reply "thinking" none (some (c6pre ++ c6tk :: c6post)) :: c6rest)
      0).state.messages =
      (runToolCalls c6host c6st1 c6pre).1.messages ++
        [toolMessage c6tk (executeToolCall c6host (runToolCalls c6host c6st1 c6pre).1 c6tk).1,
         rejectionNote c6tk] ∧
    (chatLoop c6host c6st
      (BackendResponse.reply "thinking" none (some (c6pre ++ c6tk :: c6post)) :: c6rest)
      0).events =
      Event.backendRequested :: ((runToolCalls c6host c6st1 c6pre).2.1 ++
        (executeToolCall c6host (runToolCalls c6host c6st1 c6pre).1 c6tk).2.2) ∧
    (chatLoop c6host c6st
      (BackendResponse.reply "thinking" none (some (c6pre ++ c6tk :: c6post)) :: c6rest)
      0).events.count Event.backendRequested = 1 :=
  c6_rejection_short_circuit c6host c6st c6st1 "thinking" c6pre c6post c6tk c6rest 0
    (by omega) rfl rfl (by decide) (by decide)

/-- Helper: a batch run only appends messages. -/
theorem runToolCalls_messages_extend (host : Host) :
    ∀ (tcs : List ToolCallRequest) (st : AgentState),
      ∃ t, (runToolCalls host st tcs).1.messages = st.messages ++ t := by
  intro tcs
  induction tcs with
  | nil => intro st; exact ⟨[], by simp [runToolCalls]⟩
  | cons tc rest ih =>
    intro st
    rw [runToolCalls_cons]
    by_cases hni : st.isInterrupted = true
    · rw [if_pos hni]
      exact ⟨[], by simp⟩
    · rw [if_neg hni]
      dsimp only
      by_cases hrej : (executeToolCall host st tc).1.userRejected = true
      · rw [if_pos hrej]
        exact ⟨[toolMessage tc (executeToolCall host st tc).1, rejectionNote tc],
          by simp [(executeToolCall_state_shape host st tc).1]⟩
      · rw [if_neg hrej]
        dsimp only
        obtain ⟨t, ht⟩ := ih { (executeToolCall host st tc).2.1 with
          messages := (executeToolCall host st tc).2.1.messages ++
            [toolMessage tc (executeToolCall host st tc).1] }
        exact ⟨[toolMessage tc (executeToolCall host st tc).1] ++ t,
          by rw [ht]; simp [(executeToolCall_state_shape host st tc).1]⟩

/-- Helper: one chat cycle only appends messages, whatever path it takes. -/
theorem chatLoop_maxed (host : Host) (st : AgentState)
    (script : List BackendResponse) (iteration : Nat) (h1 : 50 ≤ iteration) :
    chatLoop host st script iteration =
      (match host.onMaxIterations with
       | none => ⟨ChatOutcome.done, st, [], script⟩
       | some f =>
         if f maxIterations then chatLoop host st script 0
         else ⟨ChatOutcome.done, st, [], script⟩) := by
  rcases script with _ | ⟨resp, rest⟩
  · rw [chatLoop, if_pos h1]
  · rcases resp with ⟨c, r, _ | tcs⟩ | ⟨s, m⟩ | _ <;> rw [chatLoop, if_pos h1]

theorem chatLoop_interrupted (host : Host) (st : AgentState)
    (script : List BackendResponse) (iteration : Nat) (h1 : ¬ 50 ≤ iteration)
    (h2 : st.isInterrupted = true) :
    chatLoop host st script iteration = ⟨ChatOutcome.done, st, [], script⟩ := by
  rcases script with _ | ⟨resp, rest⟩
  · rw [chatLoop, if_neg h1, if_pos h2]
  · rcases resp with ⟨c, r, _ | tcs⟩ | ⟨s, m⟩ | _ <;> rw [chatLoop, if_neg h1, if_pos h2]

theorem chatLoop_messages_extend (host : Host) (st : AgentState)
    (script : List BackendResponse) (iteration : Nat) :
    ∃ t, (chatLoop host st script iteration).state.messages = st.messages ++ t := by
  induction st, script, iteration using chatLoop.induct host with
  | case1 st script iteration h1 h2 =>
    refine ⟨[], ?_⟩
    rw [chatLoop_maxed host st script iteration h1, h2]
    simp
  | case2 st script iteration h1 f h2 h3 ih =>
    obtain ⟨t, ht⟩ := ih
    refine ⟨t, ?_⟩
    rw [chatLoop_maxed host st script iteration h1, h2]
    dsimp only
    rw [if_pos h3]
    exact ht
  | case3 st script iteration h1 f h2 h3 =>
    refine ⟨[], ?_⟩
    rw [chatLoop_maxed host st script iteration h1, h2]
    dsimp only
    rw [if_neg h3]
    simp
  | case4 st script iteration h1 h2 =>
    exact ⟨[], by rw [chatLoop_interrupted host st script iteration h1 h2]; simp⟩
  | case5 st iteration h1 h2 =>
    exact ⟨[], by rw [chatLoop, if_neg h1, if_neg h2]; simp⟩
  | case6 st iteration h1 h2 rest =>
    exact ⟨[], by rw [chatLoop, if_neg h1, if_neg h2]; simp⟩
  | case7 st iteration h1 h2 rest msg =>
    refine ⟨[], ?_⟩
    rw [chatLoop, if_neg h1, if_neg h2]
    dsimp only
    rw [if_pos rfl]
    simp
  | case8 st iteration h1 h2 rest status msg errorMessage hstatus f happ hf ih =>
    obtain ⟨t, ht⟩ := ih
    refine ⟨t, ?_⟩
    rw [chatLoop, if_neg h1, if_neg h2]
    dsimp only
    rw [if_neg hstatus, happ]
    dsimp only
    rw [if_pos hf]
    exact ht
  | case9 st iteration h1 h2 rest status msg errorMessage hstatus f happ hf =>
    refine ⟨[Message.mk Role.system ("Request failed with error: " ++
      backendErrorMessage status msg ++ ". User chose not to retry.") none none], ?_⟩
    rw [chatLoop, if_neg h1, if_neg h2]
    dsimp only
    rw [if_neg hstatus, happ]
    dsimp only
    rw [if_neg hf]
  | case10 st iteration h1 h2 rest status msg errorMessage hstatus happ stP ih =>
    obtain ⟨t, ht⟩ := ih
    refine ⟨Message.mk Role.system ("Previous API request failed with error: " ++
      backendErrorMessage status msg ++
      ". Please try a different approach or ask the user for clarification.") none none :: t,
      ?_⟩
    rw [chatLoop, if_neg h1, if_neg h2]
    dsimp only
    rw [if_neg hstatus, happ]
    dsimp only
    rw [ht]
    simp
  | case11 st iteration h1 h2 rest content _reasoning tcs st1 st2 evs heq ih =>
    obtain ⟨t2, ht2⟩ := ih
    obtain ⟨t1, ht1⟩ := runToolCalls_messages_extend host tcs st1
    refine ⟨Message.mk Role.assistant content (some tcs) none :: (t1 ++ t2), ?_⟩
    rw [chatLoop, if_neg h1, if_neg h2]
    dsimp only
    rw [heq]
    dsimp only
    rw [ht2, show st2.messages = (runToolCalls host st1 tcs).1.messages from by rw [heq],
      ht1]
    simp
  | case12 st iteration h1 h2 rest content _reasoning tcs st1 st2 evs heq =>
    obtain ⟨t1, ht1⟩ := runToolCalls_messages_extend host tcs st1
    refine ⟨Message.mk Role.assistant content (some tcs) none :: t1, ?_⟩
    rw [chatLoop, if_neg h1, if_neg h2]
    dsimp only
    rw [heq]
    dsimp only
    rw [show st2.messages = (runToolCalls host st1 tcs).1.messages from by rw [heq], ht1]
    simp
  | case13 st iteration h1 h2 rest content _reasoning tcs st1 st2 evs heq =>
    obtain ⟨t1, ht1⟩ := runToolCalls_messages_extend host tcs st1
    refine ⟨Message.mk Role.assistant content (some tcs) none :: t1, ?_⟩
    rw [chatLoop, if_neg h1, if_neg h2]
    dsimp only
    rw [heq]
    dsimp only
    rw [show st2.messages = (runToolCalls host st1 tcs).1.messages from by rw [heq], ht1]
    simp
  | case14 st iteration h1 h2 rest content _reasoning =>
    refine ⟨[Message.mk Role.assistant content none none], ?_⟩
    rw [chatLoop, if_neg h1, if_neg h2]

/-- C8: backend failure handling.  First part — a 401 failure is raised to
the caller (`fatal` outcome) with the history untouched and without
consulting `onError`.  Second part — any other failure with a registered
`onError` answering retry continues the loop from the unchanged state.
Third part — an `onError` answering no appends exactly one system-role
failure note and returns. -/
theorem c8_backend_failure_handling (host : Host) (st : AgentState)
    (msg : String) (rest : List BackendResponse) (iteration : Nat)
    (hiter : iteration < 50) (hint : st.isInterrupted = false) :
    (chatLoop host st (BackendResponse.failure (some 401) msg :: rest) iteration =
      ⟨ChatOutcome.fatal (backendErrorMessage (some 401) msg ++
          ". Please check your API key and use /login to set a valid key."),
        st, [Event.backendRequested], rest⟩) ∧
    (∀ (status : Option Nat) (f : String → Bool),
      ¬ status = some 401 → host.onError = some f →
      f (backendErrorMessage status msg) = true →
      chatLoop host st (BackendResponse.failure status msg :: rest) iteration =
        ⟨(chatLoop host st rest (iteration + 1)).outcome,
         (chatLoop host st rest (iteration + 1)).state,
         Event.backendRequested :: Event.errorAsked (backendErrorMessage status msg) ::
           (chatLoop host st rest (iteration + 1)).events,
         (chatLoop host st rest (iteration + 1)).restScript⟩) ∧
    (∀ (status : Option Nat) (f : String → Bool),
      ¬ status = some 401 → host.onError = some f →
      f (backendErrorMessage status msg) = false →
      chatLoop host st (BackendResponse.failure status msg :: rest) iteration =
        ⟨ChatOutcome.done,
         { st with messages := st.messages ++
            [{ role := Role.system,
               content := "Request failed with error: " ++ backendErrorMessage status msg ++
                 ". User chose not to retry." }] },
         [Event.backendRequested, Event.errorAsked (backendErrorMessage status msg)],
         rest⟩) := by
  refine ⟨?_, ?_, ?_⟩
  · rw [chatLoop]
    rw [if_neg (by omega), if_neg (by simp [hint])]
    dsimp only
    rw [if_pos rfl]
  · intro status f hstatus happ hf
    rw [chatLoop]
    rw [if_neg (by omega), if_neg (by simp [hint])]
    dsimp only
    rw [if_neg hstatus, happ]
    dsimp only
    rw [if_pos hf]
  · intro status f hstatus happ hf
    rw [chatLoop]
    rw [if_neg (by omega), if_neg (by simp [hint])]
    dsimp only
    rw [if_neg hstatus, happ]
    dsimp only
    rw [if_neg (by simp [hf])]

/-- Witness for C8: the failure-handling theorem applied to a concrete 401
failure, a retried 500 failure and an abandoned 502 failure. -/
theorem c8_witness :
    (chatLoop c8host c8st [BackendResponse.failure (some 401) "bad key"] 0 =
      ⟨ChatOutcome.fatal (backendErrorMessage (some 401) "bad key" ++
          ". Please check your API key and use /login to set a valid key."),
        c8st, [Event.backendRequested], []⟩) ∧
    (chatLoop c8host c8st [BackendResponse.failure (some 500) "boom"] 0 =
      ⟨(chatLoop c8host c8st [] 1).outcome,
       (chatLoop c8host c8st [] 1).state,
       Event.backendRequested :: Event.errorAsked (backendErrorMessage (some 500) "boom") ::
         (chatLoop c8host c8st [] 1).events,
       (chatLoop c8host c8st [] 1).restScript⟩) ∧
    (chatLoop c8host c8st [BackendResponse.failure (some 502) "down"] 0 =
      ⟨ChatOutcome.done,
       { c8st with messages := c8st.messages ++
          [{ role := Role.system,
             content := "Request failed with error: " ++
               backendErrorMessage (some 502) "down" ++ ". User chose not to retry." }] },
       [Event.backendRequested, Event.errorAsked (backendErrorMessage (some 502) "down")],
       []⟩) :=
  ⟨(c8_backend_failure_handling c8host c8st "bad key" [] 0 (by omega) rfl).1,
   (c8_backend_failure_handling c8host c8st "boom" [] 0 (by omega) rfl).2.1
     (some 500) _ (by decide) rfl (by decide),
   (c8_backend_failure_handling c8host c8st "down" [] 0 (by omega) rfl).2.2
     (some 502) _ (by decide) rfl (by decide)⟩

/-- Witness for C10: the theorem applied at the concrete batch; the failure
result is returned while task 1 is already completed, annotated and
time-stamped. -/
theorem c10_witness :
    updateTasks "t1" (some c10tl) (c10us ++ [c10bad]) =
      (createToolResponse false none "" ("Error: Task '" ++ c10bad.id ++ "' not found"),
       some { c10tl with tasks := applyUpdatesSeq "t1" c10tl.tasks c10us }) ∧
    applyUpdatesSeq "t1" c10tl.tasks c10us =
      [{ id := "1", description := "d", status := "completed",
         notes := some "done", updated_at := some "t1" }] :=
  ⟨c10_update_tasks_not_atomic "t1" c10tl c10us c10bad (by decide) (by decide) (by decide),
   by decide⟩

/-- Witness for C5: the general theorem applied at a concrete never-read
edit and at a concrete read-then-edit pair. -/
theorem c5_witness :
    ((executeToolCall c5host c5st ⟨"i", "edit_file", some c5d⟩).1.success = false ∧
     (executeToolCall c5host c5st ⟨"i", "edit_file", some c5d⟩).1.error =
       some (getReadBeforeEditError "g.txt") ∧
     (executeToolCall c5host c5st ⟨"i", "edit_file", some c5d⟩).2.1 = c5st ∧
     Event.toolExecuted "edit_file" ∉
       (executeToolCall c5host c5st ⟨"i", "edit_file", some c5d⟩).2.2) ∧
    (validateReadBeforeEdit c5host.cwd
        ((executeToolCall c5host c5st ⟨"r", "read_file",
          some { file_path := some "g.txt", start_line := none, end_line := none }⟩).2.1).tools.readSet
        "g.txt" = true ∧
     (executeToolCall c5host
        (executeToolCall c5host c5st ⟨"r", "read_file",
          some { file_path := some "g.txt", start_line := none, end_line := none }⟩).2.1
        ⟨"e", "edit_file",
          some { file_path := some "g.txt", old_text := some "b",
                 new_text := some "z" }⟩).1.success = true) :=
  ⟨(c5_read_before_edit c5host c5st).1 "i" "g.txt" c5d rfl (by decide) (by decide),
   (c5_read_before_edit c5host c5st).2 "r" "e" "g.txt" "abc" "b" "z" none none rfl rfl
     (by decide) (by decide) (by decide)⟩

/-- Helper: every single operation keeps the all-system initial prefix at
the front of the message list. -/
theorem applyOp_extend (init : AgentState)
    (hinit : ∀ m ∈ init.messages, m.role = Role.system)
    (st : AgentState) (op : AgentOp)
    (h : ∃ t, st.messages = init.messages ++ t) :
    ∃ t, (applyOp st op).messages = init.messages ++ t := by
  obtain ⟨t, ht⟩ := h
  cases op with
  | chatStep host input script =>
    simp only [applyOp, chat]
    split
    · exact ⟨t, ht⟩
    · obtain ⟨t2, ht2⟩ := chatLoop_messages_extend host
        { st with
            isInterrupted := false
            hasClient := true
            messages := st.messages ++ [{ role := Role.user, content := input }] }
        script 0
      refine ⟨t ++ ([{ role := Role.user, content := input }] ++ t2), ?_⟩
      rw [ht2]
      simp [ht]
  | interruptStep =>
    exact ⟨t ++ [{ role := Role.system, content := "User has interrupted the request." }],
      by simp [applyOp, interruptOp, ht]⟩
  | clearStep =>
    refine ⟨t.filter (fun m => m.role = Role.system), ?_⟩
    have hkeep : init.messages.filter (fun m => m.role = Role.system) = init.messages :=
      List.filter_eq_self.mpr (fun m hm => by simp [hinit m hm])
    simp [applyOp, clearHistoryOp, ht, List.filter_append, hkeep]

/-- Helper: every reachable state's message list starts with the
all-system initial prefix. -/
theorem runOps_extend (init : AgentState)
    (hinit : ∀ m ∈ init.messages, m.role = Role.system)
    (ops : List AgentOp) :
    ∀ st, (∃ t, st.messages = init.messages ++ t) →
      ∃ t, (runOps st ops).messages = init.messages ++ t := by
  induction ops with
  | nil => intro st h; exact h
  | cons op rest ih =>
    intro st h
    exact ih (applyOp st op) (applyOp_extend init hinit st op h)

/-- Counterexample to C3 as written: after an `interrupt()`, a
`clearHistory()` keeps the interruption note — a system-role message the
interrupt handler appended — so the history is the original prefix plus
the note, not the original prefix alone. -/
theorem c3_counterexample :
    (clearHistoryOp (runOps c3init [AgentOp.interruptStep])).messages =
      c3init.messages ++
        [{ role := Role.system, content := "User has interrupted the request." }] ∧
    ¬ (clearHistoryOp (runOps c3init [AgentOp.interruptStep])).messages =
        c3init.messages := by
  decide

/-- C3 (amended): from an all-system initial history, after any sequence
of chat / interrupt / clearHistory operations, a `clearHistory` keeps
exactly the system-role messages of the current history; they are all
system-role and still start with the full original prefix, but interrupt
notes and failure notes appended later (also system-role) survive with
it. -/
theorem c3_clear_after_any_ops (init : AgentState) (ops : List AgentOp)
    (hinit : ∀ m ∈ init.messages, m.role = Role.system) :
    (clearHistoryOp (runOps init ops)).messages =
      (runOps init ops).messages.filter (fun m => m.role = Role.system) ∧
    (∀ m ∈ (clearHistoryOp (runOps init ops)).messages, m.role = Role.system) ∧
    ∃ t, (clearHistoryOp (runOps init ops)).messages = init.messages ++ t := by
  refine ⟨rfl, ?_, ?_⟩
  · intro m hm
    have hm2 : m ∈ (runOps init ops).messages.filter (fun m => m.role = Role.system) := by
      simpa [clearHistoryOp] using hm
    have := List.of_mem_filter hm2
    simpa using this
  · obtain ⟨t, ht⟩ := runOps_extend init hinit ops init ⟨[], by simp⟩
    have hkeep : init.messages.filter (fun m => m.role = Role.system) = init.messages :=
      List.filter_eq_self.mpr (fun m hm => by simp [hinit m hm])
    exact ⟨t.filter (fun m => m.role = Role.system),
      by simp [clearHistoryOp, ht, List.filter_append, hkeep]⟩

/-- Witness for C3 (amended): the theorem applied at a concrete
interrupt-then-clear run from a one-system-message session. -/
theorem c3_witness :
    (∀ m ∈ c3init.messages, m.role = Role.system) ∧
    ((clearHistoryOp (runOps c3init [AgentOp.interruptStep])).messages =
       (runOps c3init [AgentOp.interruptStep]).messages.filter
         (fun m => m.role = Role.system) ∧
     (∀ m ∈ (clearHistoryOp (runOps c3init [AgentOp.interruptStep])).messages,
        m.role = Role.system) ∧
     ∃ t, (clearHistoryOp (runOps c3init [AgentOp.interruptStep])).messages =
       c3init.messages ++ t) :=
  ⟨by decide, c3_clear_after_any_ops c3init [AgentOp.interruptStep] (by decide)⟩

end VibeCli
